import Mathlib

/-
Verification of the half-duplex arbitration logic of
`src/halfduplex_bot.py` (classes `HalfDuplexBot` and
`MultiChannelHalfDuplexBot`).

The Python code is shallowly embedded as follows.

* A Mumble user dict becomes `User` (fields `session`, `name`,
  `channel_id`, the ones the bot reads).
* `threading.Timer` objects become `PendingTimer` records held in a
  `pending` list inside the state; starting a timer appends it,
  `Timer.cancel()` removes it by its identity (`tid`), and a timer fires
  by being removed from `pending` and running its action.
* The `speak_timers` dict (user_id -> Timer) becomes an association list
  from user session to the `tid` of the registered timer.  Note that the
  code registers only the *restore* timers there; the revoke timers
  created in `on_sound_received` are started and immediately dropped.
* Enforcement (`.mute()` / `.unmute()` calls wrapped in try/except)
  becomes `enfLoop`: each call may fail (the `fails` oracle); the
  exception is caught and the loop continues, producing a `LogEntry`
  with an `ok` flag per attempted request.
* `self.mumble.users` is passed as a `users : List User` snapshot,
  `self.target_channel['channel_id']` as `tc : Option Nat`, and
  `self.mumble.channels` as `channels : List (Nat × String)`.
* Real times become `Nat` instants; `threading.Timer(delay, f)` started
  at instant `now` becomes a `PendingTimer` with `fireAt = now + delay`.
-/

namespace HalfDuplex

/-- A user record as the bot reads it from `mumble.users`: session id,
display name, and the id of the channel the user is in. -/
structure User where
  session : Nat
  name : String
  channel_id : Nat
deriving DecidableEq, Repr

/-- The configuration fields the arbitration logic reads: `speak_delay`,
`restore_delay`, the single target channel name `channel`, and the
optional `channels` list used by `_is_halfduplex_channel`
(`config.get('channels', [config['channel']])`). -/
structure Config where
  speak_delay : Nat
  restore_delay : Nat
  channel : String
  channels : Option (List String)
deriving DecidableEq, Repr

/-- Purpose of a scheduled timer: the `_revoke_others_speak` action or
the `_restore_speak_permissions` action. -/
inductive TPurpose where
  | revoke
  | restore
deriving DecidableEq, Repr

/-- A live `threading.Timer`: identity `tid`, the instant it is due, the
action it will run and the user session it was armed for. -/
structure PendingTimer where
  tid : Nat
  fireAt : Nat
  purpose : TPurpose
  uid : Nat
deriving DecidableEq, Repr

/-- State of a `HalfDuplexBot`: the `running` flag, `current_speaker`,
the `speak_timers` registry (session -> tid of the registered restore
timer), the multiset of live timers, and a fresh-tid counter. -/
structure BotState where
  running : Bool
  current_speaker : Option Nat
  speak_timers : List (Nat × Nat)
  pending : List PendingTimer
  nextTid : Nat
deriving DecidableEq, Repr

/-- The state right after `__init__`: running, no speaker, no timers. -/
def initState : BotState := ⟨true, none, [], [], 0⟩

/-- First-match association-list lookup (Python `dict` read / `in`). -/
def lookupA {α : Type} (k : Nat) : List (Nat × α) → Option α
  | [] => none
  | (k2, v) :: rest => if k2 = k then some v else lookupA k rest

/-- Removal of a key (Python `del d[k]`, no-op when absent). -/
def eraseA {α : Type} (k : Nat) (l : List (Nat × α)) : List (Nat × α) :=
  l.filter (fun p => p.1 != k)

/-- Python `d[k] = v`: any old binding for `k` is replaced. -/
def insertA {α : Type} (k : Nat) (v : α) (l : List (Nat × α)) : List (Nat × α) :=
  eraseA k l ++ [(k, v)]

/-- Kind of an enforcement request issued to the server. -/
inductive Req where
  | mute
  | unmute
deriving DecidableEq, Repr

/-- One issued enforcement request: when it was issued, its kind, the
target session, and whether the underlying call succeeded (`ok = false`
means the exception was caught and logged). -/
structure LogEntry where
  time : Nat
  req : Req
  session : Nat
  ok : Bool
deriving DecidableEq, Repr

/-- A single `mute()`/`unmute()` call, which may raise. -/
def tryCall (fails : Nat → Bool) (s : Nat) : Except String Unit :=
  if fails s then Except.error "enforcement error" else Except.ok ()

/-- The per-participant enforcement loop: each call is attempted inside
its own try/except, so a failure is recorded and the loop continues with
the remaining sessions (`for user in ...: try: ... except: log`). -/
def enfLoop (req : Req) (fails : Nat → Bool) (now : Nat) : List Nat → List LogEntry
  | [] => []
  | s :: rest =>
    match tryCall fails s with
    | Except.ok _ => ⟨now, req, s, true⟩ :: enfLoop req fails now rest
    | Except.error _ => ⟨now, req, s, false⟩ :: enfLoop req fails now rest

/-- Users currently in channel `c` (the filter in
`_get_users_in_channel` and in the multichannel loops). -/
def usersInChannel (users : List User) (c : Nat) : List User :=
  users.filter (fun u => u.channel_id == c)

/-- `_get_users_in_channel`: empty when no target channel is set. -/
def get_users_in_channel (tc : Option Nat) (users : List User) : List User :=
  match tc with
  | none => []
  | some c => usersInChannel users c

/-- First `with self.lock` block of `on_sound_received` (lines 96-100):
cancel and forget the registered restore timer for the user, if any. -/
def cancelRestoreTimer (uid : Nat) (st : BotState) : BotState :=
  match lookupA uid st.speak_timers with
  | some tid =>
    { st with pending := st.pending.filter (fun t => t.tid != tid),
              speak_timers := eraseA uid st.speak_timers }
  | none => st

/-- Lines 102-113 of `on_sound_received`: when the signalling user is
not the recorded speaker, record them as speaker and start a revoke
timer.  The started timer is not stored anywhere. -/
def speakerChange (cfg : Config) (now uid : Nat) (st : BotState) : BotState :=
  if st.current_speaker ≠ some uid then
    { st with current_speaker := some uid,
              pending := st.pending ++
                [⟨st.nextTid, now + cfg.speak_delay, TPurpose.revoke, uid⟩],
              nextTid := st.nextTid + 1 }
  else st

/-- Second `with self.lock` block of `on_sound_received` (lines
115-121): start a restore timer and register it in `speak_timers`. -/
def armRestore (cfg : Config) (now uid : Nat) (st : BotState) : BotState :=
  { st with pending := st.pending ++
              [⟨st.nextTid, now + cfg.restore_delay, TPurpose.restore, uid⟩],
            speak_timers := insertA uid st.nextTid st.speak_timers,
            nextTid := st.nextTid + 1 }

/-- `HalfDuplexBot.on_sound_received` (lines 84-121): drop when there is
no target channel, the bot stopped, or the user is in another channel;
cancel the registered restore timer for the user; on a speaker change
record the new speaker and start an (untracked) revoke timer; always arm
and register a fresh restore timer. -/
def on_sound_received (cfg : Config) (tc : Option Nat) (now : Nat) (user : User)
    (st : BotState) : BotState :=
  match tc with
  | none => st
  | some c =>
    if st.running = false then st
    else if user.channel_id ≠ c then st
    else
      armRestore cfg now user.session
        (speakerChange cfg now user.session (cancelRestoreTimer user.session st))

/-- `_revoke_others_speak` (lines 123-137): drop when the bot stopped or
the speaker changed since arming; otherwise issue a mute request to
every user in the target channel except the speaker, catching each
failure. -/
def fireRevoke (tc : Option Nat) (users : List User) (fails : Nat → Bool)
    (now : Nat) (speaker_id : Nat) (st : BotState) : BotState × List LogEntry :=
  if st.running = false ∨ st.current_speaker ≠ some speaker_id then (st, [])
  else
    (st, enfLoop Req.mute fails now
      (((get_users_in_channel tc users).filter (fun u => u.session != speaker_id)).map
        (fun u => u.session)))

/-- `_restore_speak_permissions` (lines 139-159): drop the registry
entry for the user; if they are still the current speaker, clear the
speaker and issue an unmute request to every user in the target channel,
catching each failure; otherwise do nothing more.  There is no check of
the `running` flag here. -/
def fireRestore (tc : Option Nat) (users : List User) (fails : Nat → Bool)
    (now : Nat) (uid : Nat) (st : BotState) : BotState × List LogEntry :=
  let st1 := { st with speak_timers := eraseA uid st.speak_timers }
  if st1.current_speaker = some uid then
    ({ st1 with current_speaker := none },
     enfLoop Req.unmute fails now ((get_users_in_channel tc users).map (fun u => u.session)))
  else (st1, [])

/-- A live timer fires: it leaves the pending set and runs its action at
its due instant. -/
def fireTimer (tc : Option Nat) (users : List User) (fails : Nat → Bool)
    (t : PendingTimer) (st : BotState) : BotState × List LogEntry :=
  let st0 := { st with pending := st.pending.filter (fun t2 => t2.tid != t.tid) }
  match t.purpose with
  | TPurpose.revoke => fireRevoke tc users fails t.fireAt t.uid st0
  | TPurpose.restore => fireRestore tc users fails t.fireAt t.uid st0

/-- `HalfDuplexBot.stop` (lines 181-203): clear `running`, cancel every
timer held in the `speak_timers` registry (and only those), and, when
still connected, issue a best-effort unmute to every user in the target
channel with every error swallowed (`except: pass`). -/
def stop (tc : Option Nat) (users : List User) (fails : Nat → Bool)
    (connected : Bool) (now : Nat) (st : BotState) : BotState × List LogEntry :=
  let st1 := { st with running := false }
  let regTids := st1.speak_timers.map (fun p => p.2)
  let st2 := { st1 with
                 pending := st1.pending.filter (fun t => !(decide (t.tid ∈ regTids))),
                 speak_timers := [] }
  if connected then
    (st2, enfLoop Req.unmute fails now
      ((get_users_in_channel tc users).map (fun u => u.session)))
  else (st2, [])

/-- Fire, in arming order, every pending timer due at or before `now`.
Firing never arms a new timer in this program, so one pass suffices. -/
def fireDue (tc : Option Nat) (users : List User) (fails : Nat → Bool)
    (now : Nat) (st : BotState) : BotState × List LogEntry :=
  (st.pending.filter (fun t => decide (t.fireAt ≤ now))).foldl
    (fun p t =>
      let q := fireTimer tc users fails t p.1
      (q.1, p.2 ++ q.2))
    (st, [])

/-- A timed run: before each activity signal `(t, u)` every timer due by
`t` fires, then `on_sound_received` handles the signal at instant `t`. -/
def runSig (cfg : Config) (tc : Option Nat) (users : List User) (fails : Nat → Bool)
    (u : User) : List Nat → BotState × List LogEntry → BotState × List LogEntry
  | [], p => p
  | t :: rest, p =>
    let q := fireDue tc users fails t p.1
    runSig cfg tc users fails u rest
      (on_sound_received cfg tc t u q.1, p.2 ++ q.2)

/-- A live timer of the multichannel bot, additionally carrying the
channel it was armed for. -/
structure MCTimer where
  tid : Nat
  fireAt : Nat
  purpose : TPurpose
  chan : Nat
  uid : Nat
deriving DecidableEq, Repr

/-- State of a `MultiChannelHalfDuplexBot`: per-channel speaker map
`channel_speakers` (a present key may hold `none`, Python `None`), the
per-channel restore-timer registries `channel_timers`, the live timers,
and a fresh-tid counter. -/
structure MCState where
  running : Bool
  channel_speakers : List (Nat × Option Nat)
  channel_timers : List (Nat × List (Nat × Nat))
  pending : List MCTimer
  nextTid : Nat
deriving DecidableEq, Repr

/-- The channel-scope list: `config.get('channels', [config['channel']])`. -/
def scopeList (cfg : Config) : List String :=
  match cfg.channels with
  | some l => l
  | none => [cfg.channel]

/-- `_is_halfduplex_channel` (lines 258-261). -/
def is_halfduplex_channel (cfg : Config) (name : String) : Bool :=
  (scopeList cfg).contains name

/-- The state right after `MultiChannelHalfDuplexBot.__init__` (lines
210-214): running, empty per-channel speaker and timer maps. -/
def mcInitState : MCState := ⟨true, [], [], [], 0⟩

/-- Lines 230-233 of the multichannel handler: lazily create the
per-channel speaker entry (value `None`) and timer-registry entry
(empty dict) when the channel is seen for the first time. -/
def mcInitChannel (cid : Nat) (st : MCState) : MCState :=
  match lookupA cid st.channel_speakers with
  | some _ => st
  | none => { st with channel_speakers := insertA cid none st.channel_speakers,
                      channel_timers := insertA cid [] st.channel_timers }

/-- The `with self.lock` block at lines 235-239: cancel and forget the
registered restore timer for `(channel, user)`, if any. -/
def mcCancelRestore (cid uid : Nat) (st : MCState) : MCState :=
  let ctimers := (lookupA cid st.channel_timers).getD []
  match lookupA uid ctimers with
  | some tid =>
    { st with pending := st.pending.filter (fun t => t.tid != tid),
              channel_timers := insertA cid (eraseA uid ctimers) st.channel_timers }
  | none => st

/-- Lines 241-248 of the multichannel handler: when the signalling user
is not the recorded speaker of the channel, record them and start a
revoke timer.  The started timer is not stored anywhere. -/
def mcSpeakerChange (cfg : Config) (now cid uid : Nat) (st : MCState) : MCState :=
  if (lookupA cid st.channel_speakers).getD none ≠ some uid then
    { st with channel_speakers := insertA cid (some uid) st.channel_speakers,
              pending := st.pending ++
                [⟨st.nextTid, now + cfg.speak_delay, TPurpose.revoke, cid, uid⟩],
              nextTid := st.nextTid + 1 }
  else st

/-- The `with self.lock` block at lines 250-256: start a restore timer
and register it under `(channel, user)` in `channel_timers`. -/
def mcArmRestore (cfg : Config) (now cid uid : Nat) (st : MCState) : MCState :=
  let ctimers2 := (lookupA cid st.channel_timers).getD []
  { st with pending := st.pending ++
              [⟨st.nextTid, now + cfg.restore_delay, TPurpose.restore, cid, uid⟩],
            channel_timers :=
              insertA cid (insertA uid st.nextTid ctimers2) st.channel_timers,
            nextTid := st.nextTid + 1 }

/-- `MultiChannelHalfDuplexBot.on_sound_received` (lines 216-256): drop
when stopped, when the channel id resolves to no channel, or when the
channel name is out of scope; lazily initialise the per-channel entries;
cancel the registered restore timer for `(channel, user)`; on a speaker
change record the new speaker and start an untracked revoke timer;
always arm and register a fresh restore timer for `(channel, user)`. -/
def mc_on_sound_received (cfg : Config) (channels : List (Nat × String)) (now : Nat)
    (user : User) (st : MCState) : MCState :=
  if st.running = false then st
  else
    match lookupA user.channel_id channels with
    | none => st
    | some cname =>
      if is_halfduplex_channel cfg cname = false then st
      else
        mcArmRestore cfg now user.channel_id user.session
          (mcSpeakerChange cfg now user.channel_id user.session
            (mcCancelRestore user.channel_id user.session
              (mcInitChannel user.channel_id st)))

/-- `_revoke_others_speak_multichannel` (lines 263-273): drop when
stopped or when `channel_speakers.get(channel_id)` no longer equals the
speaker this timer was armed for; otherwise mute every user in that
channel except the speaker, catching each failure. -/
def mc_fireRevoke (users : List User) (fails : Nat → Bool) (now : Nat)
    (cid speaker_id : Nat) (st : MCState) : MCState × List LogEntry :=
  if st.running = false ∨ (lookupA cid st.channel_speakers).getD none ≠ some speaker_id then
    (st, [])
  else
    (st, enfLoop Req.mute fails now
      ((users.filter (fun u => u.channel_id == cid && u.session != speaker_id)).map
        (fun u => u.session)))

/-- `_restore_speak_multichannel` (lines 275-290): drop the registry
entry for `(channel, user)` when present; if the user is still that
channel's speaker, clear the speaker and unmute every user in the
channel, catching each failure; otherwise do nothing more. -/
def mc_fireRestore (users : List User) (fails : Nat → Bool) (now : Nat)
    (cid uid : Nat) (st : MCState) : MCState × List LogEntry :=
  let st1 :=
    match lookupA cid st.channel_timers with
    | some ct =>
      if (lookupA uid ct).isSome then
        { st with channel_timers := insertA cid (eraseA uid ct) st.channel_timers }
      else st
    | none => st
  if (lookupA cid st1.channel_speakers).getD none = some uid then
    ({ st1 with channel_speakers := insertA cid none st1.channel_speakers },
     enfLoop Req.unmute fails now
       ((users.filter (fun u => u.channel_id == cid)).map (fun u => u.session)))
  else (st1, [])

/-- A live timer of the multichannel bot fires: it leaves the pending
set and runs its action at its due instant. -/
def mcFireTimer (users : List User) (fails : Nat → Bool) (t : MCTimer)
    (st : MCState) : MCState × List LogEntry :=
  let st0 := { st with pending := st.pending.filter (fun t2 => t2.tid != t.tid) }
  match t.purpose with
  | TPurpose.revoke => mc_fireRevoke users fails t.fireAt t.chan t.uid st0
  | TPurpose.restore => mc_fireRestore users fails t.fireAt t.chan t.uid st0

/-- Kinds of operations inside `HalfDuplexBot.on_sound_received` that
the locking discipline is judged on. -/
inductive OpKind where
  | cancelOldTimer
  | readSpeaker
  | writeSpeaker
  | scheduleRevoke
  | armRestoreTimer
deriving DecidableEq, Repr

/-- One operation of the handler together with the `with self.lock`
block it executes in (`none` = outside any lock). -/
structure CodeStep where
  op : OpKind
  lockSection : Option Nat
deriving DecidableEq, Repr

/-- The operation sequence of `HalfDuplexBot.on_sound_received`
(lines 96-121) with its lock structure, transcribed from the source:
the restore-timer cancellation sits in a first `with self.lock` block
(lines 97-100); the read of `current_speaker` (line 103), its mutation
(line 108) and the start of the revoke timer (lines 111-113) execute
with no lock held; arming and registering the restore timer sits in a
second, separate `with self.lock` block (lines 116-121). -/
def on_sound_received_lock_profile : List CodeStep :=
  [⟨OpKind.cancelOldTimer, some 0⟩,
   ⟨OpKind.readSpeaker, none⟩,
   ⟨OpKind.writeSpeaker, none⟩,
   ⟨OpKind.scheduleRevoke, none⟩,
   ⟨OpKind.armRestoreTimer, some 1⟩]

/-- The listed operations all execute inside one and the same lock-held
critical section. -/
def AtomicUnderOneLock (steps : List CodeStep) (ops : List OpKind) : Prop :=
  ∀ s1 ∈ steps, ∀ s2 ∈ steps, s1.op ∈ ops → s2.op ∈ ops →
    s1.lockSection.isSome = true ∧ s1.lockSection = s2.lockSection

/-- Well-formedness tying the `speak_timers` registry to the pending
timer set: every pending restore timer is exactly the one registered for
its user, every timer id (pending or registered) is below the fresh-id
counter, and pending timer ids are distinct. -/
def WF (st : BotState) : Prop :=
  (∀ t ∈ st.pending, t.purpose = TPurpose.restore →
     lookupA t.uid st.speak_timers = some t.tid) ∧
  (∀ t ∈ st.pending, t.tid < st.nextTid) ∧
  (∀ p ∈ st.speak_timers, p.2 < st.nextTid) ∧
  (st.pending.map (fun t => t.tid)).Nodup

/-- The states of a `HalfDuplexBot` reachable from start-up by any
interleaving of activity signals, timer firings (only live timers may
fire) and shutdown. -/
inductive Reachable : BotState → Prop where
  | init : Reachable initState
  | sound (cfg : Config) (tc : Option Nat) (now : Nat) (u : User) (st : BotState) :
      Reachable st → Reachable (on_sound_received cfg tc now u st)
  | fire (tc : Option Nat) (users : List User) (fails : Nat → Bool) (t : PendingTimer)
      (st : BotState) : t ∈ st.pending → Reachable st →
      Reachable (fireTimer tc users fails t st).1
  | halt (tc : Option Nat) (users : List User) (fails : Nat → Bool) (connected : Bool)
      (now : Nat) (st : BotState) : Reachable st →
      Reachable (stop tc users fails connected now st).1

/-- Multichannel well-formedness tying the per-channel `channel_timers`
registries to the pending timer set: every pending restore timer is
exactly the one registered under its `(channel, user)` key, every timer
id (pending or registered) is below the fresh-id counter, pending timer
ids are distinct, and a channel key absent from `channel_speakers` is
also absent from `channel_timers` (the code always creates both entries
together). -/
def MCWF (st : MCState) : Prop :=
  (∀ t ∈ st.pending, t.purpose = TPurpose.restore →
     ∃ ct, lookupA t.chan st.channel_timers = some ct ∧
       lookupA t.uid ct = some t.tid) ∧
  (∀ t ∈ st.pending, t.tid < st.nextTid) ∧
  (∀ p ∈ st.channel_timers, ∀ q ∈ p.2, q.2 < st.nextTid) ∧
  (st.pending.map (fun t => t.tid)).Nodup ∧
  (∀ cid, lookupA cid st.channel_speakers = none →
     lookupA cid st.channel_timers = none)

/-- The states of a `MultiChannelHalfDuplexBot` reachable from start-up
by any interleaving of activity signals, timer firings (only live
timers may fire) and shutdown.  The inherited `stop` cancels only the
single-channel `speak_timers` registry, which the multichannel bot
never populates, so its effect on this state is clearing the running
flag. -/
inductive MCReachable : MCState → Prop where
  | init : MCReachable mcInitState
  | sound (cfg : Config) (channels : List (Nat × String)) (now : Nat) (u : User)
      (st : MCState) : MCReachable st →
      MCReachable (mc_on_sound_received cfg channels now u st)
  | fire (users : List User) (fails : Nat → Bool) (t : MCTimer) (st : MCState) :
      t ∈ st.pending → MCReachable st →
      MCReachable (mcFireTimer users fails t st).1
  | halt (st : MCState) : MCReachable st → MCReachable { st with running := false }

/-- Signal instants that keep arriving strictly after the previous one
but within less than `rd` of it (the debounce premise). -/
def goodGaps (rd : Nat) : Nat → List Nat → Bool
  | _, [] => true
  | prev, t :: rest => (decide (prev < t) && decide (t < prev + rd)) && goodGaps rd t rest

/-- Invariant holding right after a signal of user `u` at instant `tl`
during a debounced burst that began at instant `t0`: the bot is running,
`u` is the speaker, exactly one restore timer is registered and pending
(due at `tl + restore_delay`), and besides it at most the initial revoke
timer (due at `t0 + speak_delay`) is live. -/
def MidInv (cfg : Config) (u : User) (t0 tl : Nat) (st : BotState) : Prop :=
  st.running = true ∧
  st.current_speaker = some u.session ∧
  ∃ tid, 1 ≤ tid ∧
    st.speak_timers = [(u.session, tid)] ∧
    st.nextTid = tid + 1 ∧
    (st.pending = [⟨tid, tl + cfg.restore_delay, TPurpose.restore, u.session⟩] ∨
     st.pending = [⟨0, t0 + cfg.speak_delay, TPurpose.revoke, u.session⟩,
                   ⟨tid, tl + cfg.restore_delay, TPurpose.restore, u.session⟩])

def exCfg : Config := ⟨5, 10, "hd", none⟩

def exA : User := ⟨1, "a", 7⟩

def exB : User := ⟨2, "b", 7⟩

def exUsers : List User := [⟨1, "HalfDuplexBot", 7⟩, ⟨2, "alice", 7⟩, ⟨3, "bob", 7⟩]

theorem enfLoop_eq_map (req : Req) (fails : Nat → Bool) (now : Nat) :
    ∀ ss : List Nat, enfLoop req fails now ss = ss.map (fun s => ⟨now, req, s, !fails s⟩)
  | [] => rfl
  | s :: rest => by
    unfold enfLoop tryCall
    cases h : fails s <;> simp [h, enfLoop_eq_map req fails now rest]

theorem enfLoop_sessions (req : Req) (fails : Nat → Bool) (now : Nat) (ss : List Nat) :
    (enfLoop req fails now ss).map (fun e => e.session) = ss := by
  rw [enfLoop_eq_map, List.map_map]
  exact List.map_id ss

theorem enfLoop_req (req : Req) (fails : Nat → Bool) (now : Nat) (ss : List Nat) :
    ∀ e ∈ enfLoop req fails now ss, e.req = req := by
  rw [enfLoop_eq_map]
  intro e he
  rcases List.mem_map.mp he with ⟨s, _, rfl⟩
  rfl

theorem lookupA_append {α : Type} (k : Nat) (l1 l2 : List (Nat × α)) :
    lookupA k (l1 ++ l2) =
      match lookupA k l1 with
      | some v => some v
      | none => lookupA k l2 := by
  induction l1 with
  | nil => rfl
  | cons p rest ih =>
    rcases p with ⟨k2, v⟩
    by_cases h : k2 = k
    · simp [lookupA, h]
    · simp [lookupA, h, ih]

theorem lookupA_eraseA_self {α : Type} (k : Nat) (l : List (Nat × α)) :
    lookupA k (eraseA k l) = none := by
  induction l with
  | nil => rfl
  | cons p rest ih =>
    rcases p with ⟨k2, v⟩
    by_cases h : k2 = k
    · subst h
      simpa [eraseA, List.filter_cons] using ih
    · have hb : (k2 != k) = true := by simp [h]
      simp only [eraseA, List.filter_cons, hb, if_true]
      simp only [lookupA, if_neg h]
      simpa [eraseA] using ih

theorem lookupA_eraseA_ne {α : Type} (k k2 : Nat) (h : k ≠ k2) (l : List (Nat × α)) :
    lookupA k (eraseA k2 l) = lookupA k l := by
  induction l with
  | nil => rfl
  | cons p rest ih =>
    rcases p with ⟨k3, v⟩
    by_cases h3 : k3 = k2
    · have hk : k3 ≠ k := by
        intro hkk
        exact h (by rw [← hkk, h3])
      have hb : (k3 != k2) = false := by simp [h3]
      simp only [eraseA, List.filter_cons, hb, Bool.false_eq_true, if_false]
      rw [show lookupA k ((k3, v) :: rest) = lookupA k rest from by
        simp [lookupA, if_neg hk]]
      simpa [eraseA] using ih
    · have hb : (k3 != k2) = true := by simp [h3]
      simp only [eraseA, List.filter_cons, hb, if_true]
      by_cases hk : k3 = k
      · simp [lookupA, hk]
      · simp only [lookupA, if_neg hk]
        simpa [eraseA] using ih

theorem lookupA_insertA_self {α : Type} (k : Nat) (v : α) (l : List (Nat × α)) :
    lookupA k (insertA k v l) = some v := by
  unfold insertA
  rw [lookupA_append, lookupA_eraseA_self]
  simp [lookupA]

theorem lookupA_insertA_ne {α : Type} (k k2 : Nat) (v : α) (h : k ≠ k2)
    (l : List (Nat × α)) :
    lookupA k (insertA k2 v l) = lookupA k l := by
  unfold insertA
  rw [lookupA_append]
  rw [lookupA_eraseA_ne k k2 h]
  cases hl : lookupA k l with
  | some w => rfl
  | none =>
    simp only [lookupA]
    have : k2 ≠ k := fun hk => h (hk ▸ rfl)
    simp [this]

/-- Claim C1: when a revoke timer armed for a participant fires while
somebody else (or nobody) is the recorded speaker, it only removes
itself from the pending set, issues no mute request, changes no state
and arms nothing in its place; the multichannel revoke action likewise
returns without muting when the channel's speaker no longer matches. -/
theorem stale_revoke_drops (tc : Option Nat) (users : List User) (fails : Nat → Bool)
    (t : PendingTimer) (st : BotState)
    (ht : t.purpose = TPurpose.revoke) (h : st.current_speaker ≠ some t.uid) :
    fireTimer tc users fails t st =
      ({ st with pending := st.pending.filter (fun t2 => t2.tid != t.tid) }, []) ∧
    ∀ (users2 : List User) (fails2 : Nat → Bool) (now cid sp : Nat) (st2 : MCState),
      (lookupA cid st2.channel_speakers).getD none ≠ some sp →
      mc_fireRevoke users2 fails2 now cid sp st2 = (st2, []) := by
  constructor
  · unfold fireTimer
    rw [ht]
    unfold fireRevoke
    simp [h]
  · intro users2 fails2 now cid sp st2 h2
    unfold mc_fireRevoke
    simp [h2]

theorem stale_revoke_drops_witness :
    ((⟨0, 5, TPurpose.revoke, 1⟩ : PendingTimer).purpose = TPurpose.revoke ∧
      (⟨true, some 2, [], [⟨0, 5, TPurpose.revoke, 1⟩], 1⟩ : BotState).current_speaker ≠
        some (⟨0, 5, TPurpose.revoke, 1⟩ : PendingTimer).uid) ∧
    fireTimer (some 7) [] (fun _ => false) ⟨0, 5, TPurpose.revoke, 1⟩
        ⟨true, some 2, [], [⟨0, 5, TPurpose.revoke, 1⟩], 1⟩ =
      (⟨true, some 2, [], [], 1⟩, []) :=
  ⟨⟨rfl, by decide⟩,
   (stale_revoke_drops (some 7) [] (fun _ => false) ⟨0, 5, TPurpose.revoke, 1⟩
      ⟨true, some 2, [], [⟨0, 5, TPurpose.revoke, 1⟩], 1⟩ rfl (by decide)).1⟩

/-- Claim C2: when a restore timer fires for the participant who is
still the recorded speaker, the speaker is cleared and an unmute request
is issued to every participant of the channel roster; when the speaker
no longer matches, the speaker state is untouched and no unmute is
issued.  The same holds for the multichannel restore action with the
per-channel speaker map. -/
theorem restore_fire_semantics (tc : Option Nat) (users : List User) (fails : Nat → Bool)
    (now uid : Nat) (st : BotState) (users2 : List User) (fails2 : Nat → Bool)
    (now2 cid uid2 : Nat) (st2 : MCState) :
    (st.current_speaker = some uid →
       (fireRestore tc users fails now uid st).1.current_speaker = none ∧
       (fireRestore tc users fails now uid st).2.map (fun e => e.session) =
         (get_users_in_channel tc users).map (fun u => u.session) ∧
       ∀ e ∈ (fireRestore tc users fails now uid st).2, e.req = Req.unmute) ∧
    (st.current_speaker ≠ some uid →
       (fireRestore tc users fails now uid st).1.current_speaker = st.current_speaker ∧
       (fireRestore tc users fails now uid st).2 = []) ∧
    ((lookupA cid st2.channel_speakers).getD none = some uid2 →
       lookupA cid (mc_fireRestore users2 fails2 now2 cid uid2 st2).1.channel_speakers =
         some none ∧
       (mc_fireRestore users2 fails2 now2 cid uid2 st2).2.map (fun e => e.session) =
         ((users2.filter (fun u => u.channel_id == cid)).map (fun u => u.session)) ∧
       ∀ e ∈ (mc_fireRestore users2 fails2 now2 cid uid2 st2).2, e.req = Req.unmute) ∧
    ((lookupA cid st2.channel_speakers).getD none ≠ some uid2 →
       (mc_fireRestore users2 fails2 now2 cid uid2 st2).1.channel_speakers =
         st2.channel_speakers ∧
       (mc_fireRestore users2 fails2 now2 cid uid2 st2).2 = []) := by
  refine ⟨?_, ?_, ?_, ?_⟩
  · intro h
    unfold fireRestore
    simp only [h]
    refine ⟨rfl, enfLoop_sessions _ _ _ _, enfLoop_req _ _ _ _⟩
  · intro h
    unfold fireRestore
    simp [h]
  · intro h
    refine ⟨?_, ?_, ?_⟩
    · simp only [mc_fireRestore]
      cases hct : lookupA cid st2.channel_timers with
      | none => simp [hct, h, lookupA_insertA_self]
      | some ct =>
        cases hut : (lookupA uid2 ct).isSome with
        | false => simp [hct, hut, h, lookupA_insertA_self]
        | true => simp [hct, hut, h, lookupA_insertA_self]
    · simp only [mc_fireRestore]
      cases hct : lookupA cid st2.channel_timers with
      | none => simp [hct, h, enfLoop_sessions]
      | some ct =>
        cases hut : (lookupA uid2 ct).isSome with
        | false => simp [hct, hut, h, enfLoop_sessions]
        | true => simp [hct, hut, h, enfLoop_sessions]
    · simp only [mc_fireRestore]
      cases hct : lookupA cid st2.channel_timers with
      | none =>
        simp [hct]
        rw [if_pos h]
        exact enfLoop_req _ _ _ _
      | some ct =>
        cases hut : (lookupA uid2 ct).isSome with
        | false =>
          simp [hct, hut]
          rw [if_pos h]
          exact enfLoop_req _ _ _ _
        | true =>
          simp [hct, hut]
          rw [if_pos h]
          exact enfLoop_req _ _ _ _
  · intro h
    simp only [mc_fireRestore]
    cases hct : lookupA cid st2.channel_timers with
    | none => simp [hct, h]
    | some ct =>
      cases hut : (lookupA uid2 ct).isSome with
      | false => simp [hct, hut, h]
      | true => simp [hct, hut, h]

theorem restore_fire_semantics_witness :
    (⟨true, some 1, [(1, 0)], [], 1⟩ : BotState).current_speaker = some 1 ∧
    (fireRestore (some 7) exUsers (fun _ => false) 4 1
        ⟨true, some 1, [(1, 0)], [], 1⟩).1.current_speaker = none ∧
    (fireRestore (some 7) exUsers (fun _ => false) 4 1
        ⟨true, some 1, [(1, 0)], [], 1⟩).2.map (fun e => e.session) =
      (get_users_in_channel (some 7) exUsers).map (fun u => u.session) :=
  ⟨rfl,
   ((restore_fire_semantics (some 7) exUsers (fun _ => false) 4 1
       ⟨true, some 1, [(1, 0)], [], 1⟩ exUsers (fun _ => false) 4 7 1
       ⟨true, [(7, some 1)], [], [], 0⟩).1 rfl).1,
   ((restore_fire_semantics (some 7) exUsers (fun _ => false) 4 1
       ⟨true, some 1, [(1, 0)], [], 1⟩ exUsers (fun _ => false) 4 7 1
       ⟨true, [(7, some 1)], [], [], 0⟩).1 rfl).2.1⟩

/-- Claim C6: within one enforcement batch each per-participant request
runs in its own try/except: the list of targeted sessions does not
depend on which calls fail, every eligible session is attempted, a
failed call is recorded with `ok = false`, and the batch is a total
function (no enforcement error propagates out of it). -/
theorem per_participant_isolation (req : Req) (fails fails2 : Nat → Bool) (now : Nat)
    (ss : List Nat) (tc : Option Nat) (users : List User) (sp uid : Nat) (st : BotState) :
    (enfLoop req fails now ss).map (fun e => e.session) = ss ∧
    (∀ e ∈ enfLoop req fails now ss, e.ok = !fails e.session) ∧
    (fireRevoke tc users fails now sp st).2.map (fun e => e.session) =
      (fireRevoke tc users fails2 now sp st).2.map (fun e => e.session) ∧
    (fireRestore tc users fails now uid st).2.map (fun e => e.session) =
      (fireRestore tc users fails2 now uid st).2.map (fun e => e.session) := by
  refine ⟨enfLoop_sessions _ _ _ _, ?_, ?_, ?_⟩
  · rw [enfLoop_eq_map]
    intro e he
    rcases List.mem_map.mp he with ⟨s, _, rfl⟩
    rfl
  · unfold fireRevoke
    split
    · rfl
    · simp [enfLoop_sessions]
  · by_cases h : st.current_speaker = some uid
    · unfold fireRestore
      simp [h, enfLoop_sessions]
    · unfold fireRestore
      simp [h]

/-- Claim C8: an activity signal from a user whose channel is out of
scope is dropped before any state is read or written: the single-channel
handler returns the state unchanged (so no speaker change, no timer, and
nothing that could later issue enforcement), any number of such signals
leave the state unchanged, and the multichannel handler likewise drops
signals whose channel is unknown or not configured for half-duplex. -/
theorem out_of_scope_no_effect (cfg : Config) (c : Nat) (st : BotState) :
    (∀ (now : Nat) (u : User), u.channel_id ≠ c →
       on_sound_received cfg (some c) now u st = st) ∧
    (∀ sigs : List (Nat × User), (∀ p ∈ sigs, p.2.channel_id ≠ c) →
       sigs.foldl (fun s p => on_sound_received cfg (some c) p.1 p.2 s) st = st) ∧
    (∀ (channels : List (Nat × String)) (st2 : MCState) (now : Nat) (u : User),
       (∀ nm, lookupA u.channel_id channels = some nm →
          is_halfduplex_channel cfg nm = false) →
       mc_on_sound_received cfg channels now u st2 = st2) := by
  have h1 : ∀ (now : Nat) (u : User) (stx : BotState), u.channel_id ≠ c →
      on_sound_received cfg (some c) now u stx = stx := by
    intro now u stx hu
    by_cases hr : stx.running = false
    · simp [on_sound_received, hr]
    · simp [on_sound_received, hr, hu]
  have h2 : ∀ sigs : List (Nat × User), ∀ stx : BotState,
      (∀ p ∈ sigs, p.2.channel_id ≠ c) →
      sigs.foldl (fun s p => on_sound_received cfg (some c) p.1 p.2 s) stx = stx := by
    intro sigs
    induction sigs with
    | nil => intro stx _; rfl
    | cons p rest ih =>
      intro stx hp
      simp only [List.foldl_cons]
      rw [h1 p.1 p.2 stx (hp p (List.mem_cons_self p rest))]
      exact ih stx (fun q hq => hp q (List.mem_cons_of_mem p hq))
  refine ⟨fun now u hu => h1 now u st hu, fun sigs hp => h2 sigs st hp, ?_⟩
  intro channels st2 now u h
  by_cases hr : st2.running = false
  · simp [mc_on_sound_received, hr]
  · cases hch : lookupA u.channel_id channels with
    | none => simp [mc_on_sound_received, hr, hch]
    | some nm => simp [mc_on_sound_received, hr, hch, h nm hch]

theorem out_of_scope_no_effect_witness :
    ((⟨1, "x", 8⟩ : User).channel_id ≠ 7) ∧
    on_sound_received exCfg (some 7) 0 ⟨1, "x", 8⟩ initState = initState ∧
    mc_on_sound_received exCfg [(8, "other")] 0 ⟨1, "x", 8⟩
      ⟨true, [], [], [], 0⟩ = ⟨true, [], [], [], 0⟩ :=
  ⟨by decide,
   (out_of_scope_no_effect exCfg 7 initState).1 0 ⟨1, "x", 8⟩ (by decide),
   (out_of_scope_no_effect exCfg 7 initState).2.2 [(8, "other")]
     ⟨true, [], [], [], 0⟩ 0 ⟨1, "x", 8⟩
     (by
       intro nm hnm
       simp [lookupA] at hnm
       subst hnm
       decide)⟩

/-- Claim C9 counterexample: the cancel-old-timer, read-speaker,
write-speaker and arm-new-timer operations of
`HalfDuplexBot.on_sound_received` do NOT all execute inside one single
lock-held critical section: the handler takes the lock twice and reads
and writes `current_speaker` between the two lock blocks, with no lock
held. -/
theorem lock_not_atomic_cex :
    ¬ AtomicUnderOneLock on_sound_received_lock_profile
        [OpKind.cancelOldTimer, OpKind.readSpeaker, OpKind.writeSpeaker,
         OpKind.armRestoreTimer] := by
  unfold AtomicUnderOneLock
  decide

/-- Claim C9 amended: in `HalfDuplexBot.on_sound_received` only the two
timer-registry operations are individually protected, each by its own
`with self.lock` block, while the read of `current_speaker`, its
mutation and the start of the revoke timer all execute outside any
lock. -/
theorem lock_profile_description :
    ∀ s ∈ on_sound_received_lock_profile,
      ((s.op = OpKind.readSpeaker ∨ s.op = OpKind.writeSpeaker ∨
          s.op = OpKind.scheduleRevoke) → s.lockSection = none) ∧
      (s.op = OpKind.cancelOldTimer → s.lockSection = some 0) ∧
      (s.op = OpKind.armRestoreTimer → s.lockSection = some 1) := by
  decide

theorem lock_profile_description_witness :
    ((⟨OpKind.readSpeaker, none⟩ : CodeStep) ∈ on_sound_received_lock_profile) ∧
    (⟨OpKind.readSpeaker, none⟩ : CodeStep).lockSection = none :=
  ⟨by decide,
   (lock_profile_description ⟨OpKind.readSpeaker, none⟩ (by decide)).1 (Or.inl rfl)⟩

/-- Claim C3 counterexample: revoke timers are started but never
registered or cancelled, so they stack.  After A signals, B signals,
then A signals again (all before any timer fires), two live revoke
timers for participant A coexist. -/
theorem revoke_timers_stack_cex :
    ((on_sound_received exCfg (some 7) 2 exA
        (on_sound_received exCfg (some 7) 1 exB
          (on_sound_received exCfg (some 7) 0 exA initState))).pending.filter
      (fun t => t.purpose == TPurpose.revoke && t.uid == 1)).length = 2 := by
  decide

/-- Claim C4 counterexample: the enforcement loops do not exclude the
bot's own identity.  With the bot's own user record (session 1) present
in the channel roster, the revoke batch for speaker 2 issues a mute
request to session 1, and the restore batch issues an unmute request to
session 1. -/
theorem bot_muted_cex :
    (1 : Nat) ∈ ((fireRevoke (some 7) exUsers (fun _ => false) 0 2
        ⟨true, some 2, [], [], 0⟩).2.map (fun e => e.session)) ∧
    (1 : Nat) ∈ ((fireRestore (some 7) exUsers (fun _ => false) 0 2
        ⟨true, some 2, [], [], 0⟩).2.map (fun e => e.session)) := by
  decide

/-- Claim C4 amended: the revoke batch excludes only the current
speaker and the restore batch excludes nobody: every roster member of
the channel — including the user record carrying the bot's own session —
is targeted (muted when not the speaker, and always unmuted by
restore-all). -/
theorem bot_included_in_batches (c : Nat) (users : List User) (fails : Nat → Bool)
    (now sp : Nat) (st : BotState) (b : User)
    (hrun : st.running = true) (hspk : st.current_speaker = some sp)
    (hb : b ∈ users) (hbc : b.channel_id = c) (hbs : b.session ≠ sp) :
    b.session ∈ (fireRevoke (some c) users fails now sp st).2.map (fun e => e.session) ∧
    b.session ∈ (fireRestore (some c) users fails now sp st).2.map (fun e => e.session) := by
  have hmem : b ∈ usersInChannel users c := by
    unfold usersInChannel
    rw [List.mem_filter]
    exact ⟨hb, by simp [hbc]⟩
  constructor
  · unfold fireRevoke
    rw [if_neg (by simp [hrun, hspk])]
    simp only [enfLoop_sessions]
    exact List.mem_map.mpr ⟨b, List.mem_filter.mpr ⟨hmem, by simp [hbs]⟩, rfl⟩
  · unfold fireRestore
    rw [if_pos hspk]
    simp only [enfLoop_sessions]
    exact List.mem_map.mpr ⟨b, hmem, rfl⟩

theorem bot_included_in_batches_witness :
    ((⟨true, some 2, [], [], 0⟩ : BotState).running = true ∧
     (⟨true, some 2, [], [], 0⟩ : BotState).current_speaker = some 2 ∧
     (⟨1, "HalfDuplexBot", 7⟩ : User) ∈ exUsers ∧
     (⟨1, "HalfDuplexBot", 7⟩ : User).channel_id = 7 ∧
     (⟨1, "HalfDuplexBot", 7⟩ : User).session ≠ 2) ∧
    (1 : Nat) ∈ (fireRevoke (some 7) exUsers (fun _ => true) 0 2
      ⟨true, some 2, [], [], 0⟩).2.map (fun e => e.session) :=
  ⟨⟨rfl, rfl, by decide, rfl, by decide⟩,
   (bot_included_in_batches 7 exUsers (fun _ => true) 0 2 ⟨true, some 2, [], [], 0⟩
     ⟨1, "HalfDuplexBot", 7⟩ rfl rfl (by decide) rfl (by decide)).1⟩

/-- Claim C7 counterexample: `stop` cancels only the timers held in the
`speak_timers` registry, and revoke timers are never registered there.
After one activity signal, calling `stop` leaves the armed revoke timer
live in the pending set: `stop()` did not cancel every pending timer. -/
theorem stop_leaves_revoke_cex :
    (stop (some 7) [exA] (fun _ => false) true 3
        (on_sound_received exCfg (some 7) 0 exA initState)).1.pending =
      [⟨0, 5, TPurpose.revoke, 1⟩] := by
  decide

theorem mc_fireRestore_log (users : List User) (fails : Nat → Bool) (now cid uid : Nat)
    (st : MCState) :
    (mc_fireRestore users fails now cid uid st).2 = [] ∨
    (mc_fireRestore users fails now cid uid st).2 =
      enfLoop Req.unmute fails now
        ((users.filter (fun u => u.channel_id == cid)).map (fun u => u.session)) := by
  unfold mc_fireRestore
  cases hct : lookupA cid st.channel_timers with
  | none =>
    by_cases h : (lookupA cid st.channel_speakers).getD none = some uid
    · right; simp [hct, h]
    · left; simp [hct, h]
  | some ct =>
    cases hut : (lookupA uid ct).isSome with
    | false =>
      by_cases h : (lookupA cid st.channel_speakers).getD none = some uid
      · right; simp [hct, hut, h]
      · left; simp [hct, hut, h]
    | true =>
      by_cases h : (lookupA cid st.channel_speakers).getD none = some uid
      · right; simp [hct, hut, h]
      · left; simp [hct, hut, h]

theorem mc_fireRevoke_log (users : List User) (fails : Nat → Bool) (now cid sp : Nat)
    (st : MCState) :
    (mc_fireRevoke users fails now cid sp st).2 = [] ∨
    (mc_fireRevoke users fails now cid sp st).2 =
      enfLoop Req.mute fails now
        ((users.filter (fun u => u.channel_id == cid && u.session != sp)).map
          (fun u => u.session)) := by
  unfold mc_fireRevoke
  split
  · left; rfl
  · right; rfl

/-- Claim C10: processing a sound signal from a user of channel `c` in
the multichannel bot leaves the recorded speaker and the timer registry
of every other channel unchanged, and the enforcement actions of the
per-channel revoke and restore batches only ever target users whose
record places them in the batch's own channel. -/
theorem mc_frame_isolation (cfg : Config) (channels : List (Nat × String)) (now : Nat)
    (u : User) (st : MCState) (c2 : Nat) (hne : c2 ≠ u.channel_id) :
    lookupA c2 (mc_on_sound_received cfg channels now u st).channel_speakers =
      lookupA c2 st.channel_speakers ∧
    lookupA c2 (mc_on_sound_received cfg channels now u st).channel_timers =
      lookupA c2 st.channel_timers ∧
    (∀ (users : List User) (fails : Nat → Bool) (uid : Nat),
       ∀ e ∈ (mc_fireRestore users fails now u.channel_id uid st).2,
         e.session ∈ (users.filter (fun w => w.channel_id == u.channel_id)).map
           (fun w => w.session)) ∧
    (∀ (users : List User) (fails : Nat → Bool) (sp : Nat),
       ∀ e ∈ (mc_fireRevoke users fails now u.channel_id sp st).2,
         e.session ∈ (users.filter (fun w => w.channel_id == u.channel_id)).map
           (fun w => w.session)) := by
  have hframe :
      lookupA c2 (mc_on_sound_received cfg channels now u st).channel_speakers =
        lookupA c2 st.channel_speakers ∧
      lookupA c2 (mc_on_sound_received cfg channels now u st).channel_timers =
        lookupA c2 st.channel_timers := by
    by_cases hr : st.running = false
    · simp [mc_on_sound_received, hr]
    · cases hch : lookupA u.channel_id channels with
      | none => simp [mc_on_sound_received, hr, hch]
      | some nm =>
        by_cases hsc : is_halfduplex_channel cfg nm = false
        · simp [mc_on_sound_received, hr, hch, hsc]
        · cases hsp0 : lookupA u.channel_id st.channel_speakers with
          | none =>
            simp [mc_on_sound_received, mcInitChannel, mcCancelRestore, mcSpeakerChange, mcArmRestore, hr, hch, hsc, hsp0, lookupA, lookupA_insertA_self,
                  lookupA_insertA_ne, hne]
          | some w =>
            cases hti : lookupA u.channel_id st.channel_timers with
            | none =>
              by_cases hspk : w ≠ some u.session
              · simp [mc_on_sound_received, mcInitChannel, mcCancelRestore, mcSpeakerChange, mcArmRestore, hr, hch, hsc, hsp0, hti, hspk, lookupA,
                      lookupA_insertA_self, lookupA_insertA_ne, hne]
              · simp [mc_on_sound_received, mcInitChannel, mcCancelRestore, mcSpeakerChange, mcArmRestore, hr, hch, hsc, hsp0, hti, hspk, lookupA,
                      lookupA_insertA_self, lookupA_insertA_ne, hne]
            | some ct =>
              cases hcu : lookupA u.session ct with
              | none =>
                by_cases hspk : w ≠ some u.session
                · simp [mc_on_sound_received, mcInitChannel, mcCancelRestore, mcSpeakerChange, mcArmRestore, hr, hch, hsc, hsp0, hti, hcu, hspk, lookupA,
                        lookupA_insertA_self, lookupA_insertA_ne, hne]
                · simp [mc_on_sound_received, mcInitChannel, mcCancelRestore, mcSpeakerChange, mcArmRestore, hr, hch, hsc, hsp0, hti, hcu, hspk, lookupA,
                        lookupA_insertA_self, lookupA_insertA_ne, hne]
              | some tid =>
                by_cases hspk : w ≠ some u.session
                · simp [mc_on_sound_received, mcInitChannel, mcCancelRestore, mcSpeakerChange, mcArmRestore, hr, hch, hsc, hsp0, hti, hcu, hspk, lookupA,
                        lookupA_insertA_self, lookupA_insertA_ne, hne]
                · simp [mc_on_sound_received, mcInitChannel, mcCancelRestore, mcSpeakerChange, mcArmRestore, hr, hch, hsc, hsp0, hti, hcu, hspk, lookupA,
                        lookupA_insertA_self, lookupA_insertA_ne, hne]
  refine ⟨hframe.1, hframe.2, ?_, ?_⟩
  · intro users fails uid e he
    rcases mc_fireRestore_log users fails now u.channel_id uid st with hl | hl
    · rw [hl] at he
      cases he
    · rw [hl, enfLoop_eq_map] at he
      rcases List.mem_map.mp he with ⟨s, hs, rfl⟩
      exact hs
  · intro users fails sp e he
    rcases mc_fireRevoke_log users fails now u.channel_id sp st with hl | hl
    · rw [hl] at he
      cases he
    · rw [hl, enfLoop_eq_map] at he
      rcases List.mem_map.mp he with ⟨s, hs, rfl⟩
      rcases List.mem_map.mp hs with ⟨w, hw, rfl⟩
      rcases List.mem_filter.mp hw with ⟨hwu, hcond⟩
      refine List.mem_map.mpr ⟨w, List.mem_filter.mpr ⟨hwu, ?_⟩, rfl⟩
      exact (Bool.and_eq_true_iff.mp hcond).1

theorem mc_frame_isolation_witness :
    ((3 : Nat) ≠ (⟨1, "a", 7⟩ : User).channel_id) ∧
    lookupA 3 (mc_on_sound_received exCfg [(7, "hd")] 0 ⟨1, "a", 7⟩
        ⟨true, [(3, some 9)], [(3, [(9, 4)])], [], 5⟩).channel_speakers =
      lookupA 3 (⟨true, [(3, some 9)], [(3, [(9, 4)])], [], 5⟩ : MCState).channel_speakers :=
  ⟨by decide,
   (mc_frame_isolation exCfg [(7, "hd")] 0 ⟨1, "a", 7⟩
      ⟨true, [(3, some 9)], [(3, [(9, 4)])], [], 5⟩ 3 (by decide)).1⟩

theorem lookupA_mem_snd {α : Type} (k : Nat) (v : α) :
    ∀ l : List (Nat × α), lookupA k l = some v → v ∈ l.map (fun p => p.2)
  | [] => by intro h; cases h
  | (k2, w) :: rest => by
    intro h
    unfold lookupA at h
    by_cases hk : k2 = k
    · rw [if_pos hk] at h
      cases h
      exact List.mem_cons_self _ _
    · rw [if_neg hk] at h
      exact List.mem_cons_of_mem _ (lookupA_mem_snd k v rest h)

theorem cancelRestoreTimer_eq_some (uid : Nat) (st : BotState) (tid : Nat)
    (hl : lookupA uid st.speak_timers = some tid) :
    cancelRestoreTimer uid st =
      { st with pending := st.pending.filter (fun t => t.tid != tid),
                speak_timers := eraseA uid st.speak_timers } := by
  unfold cancelRestoreTimer
  rw [hl]

theorem cancelRestoreTimer_eq_none (uid : Nat) (st : BotState)
    (hl : lookupA uid st.speak_timers = none) :
    cancelRestoreTimer uid st = st := by
  unfold cancelRestoreTimer
  rw [hl]

theorem fireRevoke_fst (tc : Option Nat) (users : List User) (fails : Nat → Bool)
    (now sp : Nat) (st : BotState) : (fireRevoke tc users fails now sp st).1 = st := by
  unfold fireRevoke
  split <;> rfl

theorem fireRevoke_drop (tc : Option Nat) (users : List User) (fails : Nat → Bool)
    (now sp : Nat) (st : BotState)
    (h : st.running = false ∨ st.current_speaker ≠ some sp) :
    fireRevoke tc users fails now sp st = (st, []) := by
  unfold fireRevoke
  rw [if_pos h]

theorem fireRestore_fst (tc : Option Nat) (users : List User) (fails : Nat → Bool)
    (now uid : Nat) (st : BotState) :
    (fireRestore tc users fails now uid st).1 =
      if st.current_speaker = some uid then
        { st with current_speaker := none, speak_timers := eraseA uid st.speak_timers }
      else { st with speak_timers := eraseA uid st.speak_timers } := by
  simp only [fireRestore]
  by_cases h : st.current_speaker = some uid
  · rw [if_pos h, if_pos h]
  · rw [if_neg h, if_neg h]

theorem fireTimer_fst_revoke (tc : Option Nat) (users : List User) (fails : Nat → Bool)
    (t : PendingTimer) (st : BotState) (hp : t.purpose = TPurpose.revoke) :
    (fireTimer tc users fails t st).1 =
      { st with pending := st.pending.filter (fun t2 => t2.tid != t.tid) } := by
  unfold fireTimer
  rw [hp]
  exact fireRevoke_fst tc users fails t.fireAt t.uid _

theorem fireTimer_fst_restore (tc : Option Nat) (users : List User) (fails : Nat → Bool)
    (t : PendingTimer) (st : BotState) (hp : t.purpose = TPurpose.restore) :
    (fireTimer tc users fails t st).1 =
      if st.current_speaker = some t.uid then
        { st with current_speaker := none,
                  pending := st.pending.filter (fun t2 => t2.tid != t.tid),
                  speak_timers := eraseA t.uid st.speak_timers }
      else
        { st with pending := st.pending.filter (fun t2 => t2.tid != t.tid),
                  speak_timers := eraseA t.uid st.speak_timers } := by
  unfold fireTimer
  rw [hp]
  rw [fireRestore_fst]

theorem WF_cancelRestoreTimer (uid : Nat) (st : BotState) (h : WF st) :
    WF (cancelRestoreTimer uid st) ∧
    (∀ t ∈ (cancelRestoreTimer uid st).pending,
       t.purpose = TPurpose.restore → t.uid ≠ uid) := by
  obtain ⟨h1, h2, h3, h4⟩ := h
  cases hl : lookupA uid st.speak_timers with
  | none =>
    rw [cancelRestoreTimer_eq_none uid st hl]
    refine ⟨⟨h1, h2, h3, h4⟩, ?_⟩
    intro t ht hres heq
    have hx := h1 t ht hres
    rw [heq, hl] at hx
    cases hx
  | some tid =>
    rw [cancelRestoreTimer_eq_some uid st tid hl]
    refine ⟨⟨?_, ?_, ?_, ?_⟩, ?_⟩
    · intro t ht hres
      have htm := List.mem_of_mem_filter ht
      have htid := List.of_mem_filter ht
      have hne : t.tid ≠ tid := by simpa using htid
      by_cases hu : t.uid = uid
      · exfalso
        have hx := h1 t htm hres
        rw [hu, hl] at hx
        exact hne (Option.some.inj hx).symm
      · rw [lookupA_eraseA_ne t.uid uid hu]
        exact h1 t htm hres
    · intro t ht
      exact h2 t (List.mem_of_mem_filter ht)
    · intro p hp
      exact h3 p (List.mem_of_mem_filter hp)
    · exact h4.sublist ((List.filter_sublist _).map _)
    · intro t ht hres heq
      have htm := List.mem_of_mem_filter ht
      have htid := List.of_mem_filter ht
      have hne : t.tid ≠ tid := by simpa using htid
      have hx := h1 t htm hres
      rw [heq, hl] at hx
      exact hne (Option.some.inj hx).symm

theorem WF_speakerChange (cfg : Config) (now uid : Nat) (st : BotState) (h : WF st)
    (hres : ∀ t ∈ st.pending, t.purpose = TPurpose.restore → t.uid ≠ uid) :
    WF (speakerChange cfg now uid st) ∧
    (∀ t ∈ (speakerChange cfg now uid st).pending,
       t.purpose = TPurpose.restore → t.uid ≠ uid) ∧
    (speakerChange cfg now uid st).speak_timers = st.speak_timers := by
  obtain ⟨h1, h2, h3, h4⟩ := h
  unfold speakerChange
  by_cases hs : st.current_speaker ≠ some uid
  · rw [if_pos hs]
    refine ⟨⟨?_, ?_, ?_, ?_⟩, ?_, rfl⟩
    · intro t ht hres2
      rcases List.mem_append.mp ht with hold | hnew
      · exact h1 t hold hres2
      · rcases List.mem_singleton.mp hnew with rfl
        cases hres2
    · intro t ht
      rcases List.mem_append.mp ht with hold | hnew
      · exact Nat.lt_succ_of_lt (h2 t hold)
      · rcases List.mem_singleton.mp hnew with rfl
        exact Nat.lt_succ_self _
    · intro p hp
      exact Nat.lt_succ_of_lt (h3 p hp)
    · rw [List.map_append]
      refine h4.append (List.nodup_singleton _) ?_
      intro a ha hb
      rcases List.mem_map.mp ha with ⟨t, htm, rfl⟩
      rcases List.mem_singleton.mp hb with hEq
      have : t.tid < st.nextTid := h2 t htm
      simp only [List.map_cons, List.map_nil] at hEq
      omega
    · intro t ht hres2
      rcases List.mem_append.mp ht with hold | hnew
      · exact hres t hold hres2
      · rcases List.mem_singleton.mp hnew with rfl
        intro hx
        cases hres2
  · rw [if_neg hs]
    exact ⟨⟨h1, h2, h3, h4⟩, hres, rfl⟩

theorem WF_armRestore (cfg : Config) (now uid : Nat) (st : BotState) (h : WF st)
    (hres : ∀ t ∈ st.pending, t.purpose = TPurpose.restore → t.uid ≠ uid) :
    WF (armRestore cfg now uid st) := by
  obtain ⟨h1, h2, h3, h4⟩ := h
  unfold armRestore
  refine ⟨?_, ?_, ?_, ?_⟩
  · intro t ht hres2
    rcases List.mem_append.mp ht with hold | hnew
    · have hne : t.uid ≠ uid := hres t hold hres2
      rw [lookupA_insertA_ne t.uid uid _ hne]
      exact h1 t hold hres2
    · rcases List.mem_singleton.mp hnew with rfl
      exact lookupA_insertA_self uid st.nextTid st.speak_timers
  · intro t ht
    rcases List.mem_append.mp ht with hold | hnew
    · exact Nat.lt_succ_of_lt (h2 t hold)
    · rcases List.mem_singleton.mp hnew with rfl
      exact Nat.lt_succ_self _
  · intro p hp
    rcases List.mem_append.mp hp with hold | hnew
    · exact Nat.lt_succ_of_lt (h3 p (List.mem_of_mem_filter hold))
    · rcases List.mem_singleton.mp hnew with rfl
      exact Nat.lt_succ_self _
  · rw [List.map_append]
    refine h4.append (List.nodup_singleton _) ?_
    intro a ha hb
    rcases List.mem_map.mp ha with ⟨t, htm, rfl⟩
    rcases List.mem_singleton.mp hb with hEq
    have : t.tid < st.nextTid := h2 t htm
    simp only [List.map_cons, List.map_nil] at hEq
    omega

theorem WF_on_sound_received (cfg : Config) (tc : Option Nat) (now : Nat) (u : User)
    (st : BotState) (h : WF st) : WF (on_sound_received cfg tc now u st) := by
  cases tc with
  | none => exact h
  | some c =>
    by_cases hr : st.running = false
    · rw [show on_sound_received cfg (some c) now u st = st from by
        simp [on_sound_received, hr]]
      exact h
    · by_cases hu : u.channel_id = c
      · rw [show on_sound_received cfg (some c) now u st =
            armRestore cfg now u.session
              (speakerChange cfg now u.session (cancelRestoreTimer u.session st)) from by
          simp [on_sound_received, hr, hu]]
        obtain ⟨hw1, hp1⟩ := WF_cancelRestoreTimer u.session st h
        obtain ⟨hw2, hp2, _⟩ := WF_speakerChange cfg now u.session _ hw1 hp1
        exact WF_armRestore cfg now u.session _ hw2 hp2
      · rw [show on_sound_received cfg (some c) now u st = st from by
          simp [on_sound_received, hr, hu]]
        exact h

theorem WF_filter_tid (st : BotState) (tid0 : Nat) (h : WF st) :
    WF { st with pending := st.pending.filter (fun t2 => t2.tid != tid0) } := by
  obtain ⟨h1, h2, h3, h4⟩ := h
  refine ⟨?_, ?_, h3, ?_⟩
  · intro t ht hres
    exact h1 t (List.mem_of_mem_filter ht) hres
  · intro t ht
    exact h2 t (List.mem_of_mem_filter ht)
  · exact h4.sublist ((List.filter_sublist _).map _)

theorem WF_fireTimer (tc : Option Nat) (users : List User) (fails : Nat → Bool)
    (t : PendingTimer) (st : BotState) (ht : t ∈ st.pending) (h : WF st) :
    WF (fireTimer tc users fails t st).1 := by
  have hst0 := WF_filter_tid st t.tid h
  cases hp : t.purpose with
  | revoke =>
    rw [fireTimer_fst_revoke tc users fails t st hp]
    exact hst0
  | restore =>
    rw [fireTimer_fst_restore tc users fails t st hp]
    obtain ⟨g1, g2, g3, g4⟩ := hst0
    have hWFst1 : WF { st with
        pending := st.pending.filter (fun t2 => t2.tid != t.tid),
        speak_timers := eraseA t.uid st.speak_timers } := by
      refine ⟨?_, g2, ?_, g4⟩
      · intro t2 ht2 hres2
        have hm2 := List.mem_of_mem_filter ht2
        have htid2 := List.of_mem_filter ht2
        have hne2 : t2.tid ≠ t.tid := by simpa using htid2
        by_cases hu : t2.uid = t.uid
        · exfalso
          have e1 := h.1 t2 hm2 hres2
          have e2 := h.1 t ht hp
          rw [hu] at e1
          rw [e2] at e1
          exact hne2 (Option.some.inj e1).symm
        · rw [lookupA_eraseA_ne t2.uid t.uid hu]
          exact h.1 t2 hm2 hres2
      · intro p hp2
        exact h.2.2.1 p (List.mem_of_mem_filter hp2)
    by_cases hs : st.current_speaker = some t.uid
    · rw [if_pos hs]
      exact ⟨hWFst1.1, hWFst1.2.1, hWFst1.2.2.1, hWFst1.2.2.2⟩
    · rw [if_neg hs]
      exact hWFst1

theorem stop_fst (tc : Option Nat) (users : List User) (fails : Nat → Bool)
    (connected : Bool) (now : Nat) (st : BotState) :
    (stop tc users fails connected now st).1 =
      { st with running := false,
                pending := st.pending.filter
                  (fun t => !(decide (t.tid ∈ st.speak_timers.map (fun p => p.2)))),
                speak_timers := [] } := by
  unfold stop
  cases connected <;> rfl

theorem WF_stop (tc : Option Nat) (users : List User) (fails : Nat → Bool)
    (connected : Bool) (now : Nat) (st : BotState) (h : WF st) :
    WF (stop tc users fails connected now st).1 ∧
    ∀ t ∈ (stop tc users fails connected now st).1.pending,
      t.purpose = TPurpose.revoke := by
  obtain ⟨h1, h2, h3, h4⟩ := h
  rw [stop_fst]
  have hnores : ∀ t ∈ st.pending.filter
      (fun t => !(decide (t.tid ∈ st.speak_timers.map (fun p => p.2)))),
      t.purpose = TPurpose.revoke := by
    intro t ht
    have htm := List.mem_of_mem_filter ht
    have hcond := List.of_mem_filter ht
    have hnm : t.tid ∉ st.speak_timers.map (fun p => p.2) := by simpa using hcond
    cases hpp : t.purpose with
    | revoke => rfl
    | restore =>
      exfalso
      exact hnm (lookupA_mem_snd t.uid t.tid st.speak_timers (h1 t htm hpp))
  refine ⟨⟨?_, ?_, ?_, ?_⟩, hnores⟩
  · intro t ht hres
    exfalso
    have := hnores t ht
    rw [this] at hres
    cases hres
  · intro t ht
    exact h2 t (List.mem_of_mem_filter ht)
  · intro p hp
    cases hp
  · exact h4.sublist ((List.filter_sublist _).map _)

theorem WF_of_reachable (st : BotState) (h : Reachable st) : WF st := by
  induction h with
  | init =>
    refine ⟨?_, ?_, ?_, ?_⟩ <;> simp [initState]
  | sound cfg tc now u st _ ih => exact WF_on_sound_received cfg tc now u st ih
  | fire tc users fails t st ht _ ih => exact WF_fireTimer tc users fails t st ht ih
  | halt tc users fails connected now st _ ih =>
    exact (WF_stop tc users fails connected now st ih).1

theorem restore_unique_of_WF (st : BotState) (h : WF st) (uid : Nat) :
    (st.pending.filter
      (fun t => t.purpose == TPurpose.restore && t.uid == uid)).length ≤ 1 := by
  obtain ⟨h1, _, _, h4⟩ := h
  have hpair : ∀ t1 ∈ st.pending.filter
        (fun t => t.purpose == TPurpose.restore && t.uid == uid),
      ∀ t2 ∈ st.pending.filter
        (fun t => t.purpose == TPurpose.restore && t.uid == uid), t1 = t2 := by
    intro t1 ht1 t2 ht2
    have hm1 := List.mem_of_mem_filter ht1
    have hm2 := List.mem_of_mem_filter ht2
    have hc1 := List.of_mem_filter ht1
    have hc2 := List.of_mem_filter ht2
    have hp1 : t1.purpose = TPurpose.restore := by
      have := (Bool.and_eq_true_iff.mp hc1).1
      simpa using this
    have hp2 : t2.purpose = TPurpose.restore := by
      have := (Bool.and_eq_true_iff.mp hc2).1
      simpa using this
    have hu1 : t1.uid = uid := by
      have := (Bool.and_eq_true_iff.mp hc1).2
      simpa using this
    have hu2 : t2.uid = uid := by
      have := (Bool.and_eq_true_iff.mp hc2).2
      simpa using this
    have e1 := h1 t1 hm1 hp1
    have e2 := h1 t2 hm2 hp2
    rw [hu1] at e1
    rw [hu2] at e2
    rw [e1] at e2
    exact List.inj_on_of_nodup_map h4 hm1 hm2 (Option.some.inj e2)
  have hnodup : (st.pending.filter
      (fun t => t.purpose == TPurpose.restore && t.uid == uid)).Nodup :=
    (List.Nodup.of_map _ h4).filter _
  cases hfl : st.pending.filter
      (fun t => t.purpose == TPurpose.restore && t.uid == uid) with
  | nil => simp
  | cons a rest =>
    cases rest with
    | nil => simp
    | cons b rest2 =>
      exfalso
      rw [hfl] at hnodup hpair
      have hab : a = b :=
        hpair a (List.mem_cons_self _ _)
          b (List.mem_cons_of_mem _ (List.mem_cons_self _ _))
      rcases List.nodup_cons.mp hnodup with ⟨hnin, _⟩
      exact hnin (hab ▸ List.mem_cons_self b rest2)

theorem length_le_one_of_all_eq {α : Type} (l : List α) (hnd : l.Nodup)
    (hpair : ∀ a ∈ l, ∀ b ∈ l, a = b) : l.length ≤ 1 := by
  cases l with
  | nil => simp
  | cons a rest =>
    cases rest with
    | nil => simp
    | cons b rest2 =>
      exfalso
      have hab : a = b :=
        hpair a (List.mem_cons_self _ _)
          b (List.mem_cons_of_mem _ (List.mem_cons_self _ _))
      rcases List.nodup_cons.mp hnd with ⟨hnin, _⟩
      exact hnin (hab ▸ List.mem_cons_self b rest2)

theorem lookupA_mem_pair {α : Type} (k : Nat) (v : α) :
    ∀ l : List (Nat × α), lookupA k l = some v → (k, v) ∈ l
  | [] => by intro h; cases h
  | (k2, w) :: rest => by
    intro h
    unfold lookupA at h
    by_cases hk : k2 = k
    · rw [if_pos hk] at h
      injection h with hwv
      subst hwv
      subst hk
      exact List.mem_cons_self _ _
    · rw [if_neg hk] at h
      exact List.mem_cons_of_mem _ (lookupA_mem_pair k v rest h)

theorem mcInitChannel_eq_present (cid : Nat) (st : MCState) (w : Option Nat)
    (hsp : lookupA cid st.channel_speakers = some w) :
    mcInitChannel cid st = st := by
  unfold mcInitChannel
  rw [hsp]

theorem mcInitChannel_eq_new (cid : Nat) (st : MCState)
    (hsp : lookupA cid st.channel_speakers = none) :
    mcInitChannel cid st =
      { st with channel_speakers := insertA cid none st.channel_speakers,
                channel_timers := insertA cid [] st.channel_timers } := by
  unfold mcInitChannel
  rw [hsp]

theorem mcCancelRestore_eq_nochan (cid uid : Nat) (st : MCState)
    (hct : lookupA cid st.channel_timers = none) :
    mcCancelRestore cid uid st = st := by
  simp only [mcCancelRestore]
  rw [hct]
  simp [lookupA]

theorem mcCancelRestore_eq_nouser (cid uid : Nat) (st : MCState) (ct : List (Nat × Nat))
    (hct : lookupA cid st.channel_timers = some ct)
    (hcu : lookupA uid ct = none) :
    mcCancelRestore cid uid st = st := by
  simp only [mcCancelRestore]
  rw [hct]
  simp only [Option.getD_some]
  rw [hcu]

theorem mcCancelRestore_eq_found (cid uid : Nat) (st : MCState) (ct : List (Nat × Nat))
    (tid : Nat) (hct : lookupA cid st.channel_timers = some ct)
    (hcu : lookupA uid ct = some tid) :
    mcCancelRestore cid uid st =
      { st with pending := st.pending.filter (fun t => t.tid != tid),
                channel_timers := insertA cid (eraseA uid ct) st.channel_timers } := by
  simp only [mcCancelRestore]
  rw [hct]
  simp only [Option.getD_some]
  rw [hcu]

theorem mcArmRestore_eq (cfg : Config) (now cid uid : Nat) (st : MCState) :
    mcArmRestore cfg now cid uid st =
      { st with pending := st.pending ++
                  [⟨st.nextTid, now + cfg.restore_delay, TPurpose.restore, cid, uid⟩],
                channel_timers :=
                  insertA cid
                    (insertA uid st.nextTid ((lookupA cid st.channel_timers).getD []))
                    st.channel_timers,
                nextTid := st.nextTid + 1 } := by
  simp only [mcArmRestore]

theorem MCWF_mcInitChannel (cid : Nat) (st : MCState) (h : MCWF st) :
    MCWF (mcInitChannel cid st) := by
  obtain ⟨h1, h2, h3, h4, h5⟩ := h
  cases hsp : lookupA cid st.channel_speakers with
  | some w =>
    rw [mcInitChannel_eq_present cid st w hsp]
    exact ⟨h1, h2, h3, h4, h5⟩
  | none =>
    have hti : lookupA cid st.channel_timers = none := h5 cid hsp
    rw [mcInitChannel_eq_new cid st hsp]
    refine ⟨?_, h2, ?_, h4, ?_⟩
    · intro t ht hres
      obtain ⟨ct, hc, hu⟩ := h1 t ht hres
      by_cases hchan : t.chan = cid
      · exfalso
        rw [hchan, hti] at hc
        cases hc
      · refine ⟨ct, ?_, hu⟩
        rw [lookupA_insertA_ne t.chan cid _ hchan]
        exact hc
    · intro p hp q hq
      rcases List.mem_append.mp hp with hold | hnew
      · exact h3 p (List.mem_of_mem_filter hold) q hq
      · rcases List.mem_singleton.mp hnew with rfl
        cases hq
    · intro cid2 hsp2
      by_cases hc2 : cid2 = cid
      · exfalso
        rw [hc2, lookupA_insertA_self] at hsp2
        cases hsp2
      · rw [lookupA_insertA_ne cid2 cid _ hc2] at hsp2
        rw [lookupA_insertA_ne cid2 cid _ hc2]
        exact h5 cid2 hsp2

theorem MCWF_mcCancelRestore (cid uid : Nat) (st : MCState) (h : MCWF st) :
    MCWF (mcCancelRestore cid uid st) ∧
    (∀ t ∈ (mcCancelRestore cid uid st).pending,
       t.purpose = TPurpose.restore → t.chan = cid → t.uid ≠ uid) ∧
    (mcCancelRestore cid uid st).channel_speakers = st.channel_speakers := by
  obtain ⟨h1, h2, h3, h4, h5⟩ := h
  cases hct : lookupA cid st.channel_timers with
  | none =>
    rw [mcCancelRestore_eq_nochan cid uid st hct]
    refine ⟨⟨h1, h2, h3, h4, h5⟩, ?_, rfl⟩
    intro t ht hres hchan _
    obtain ⟨ct, hc, _⟩ := h1 t ht hres
    rw [hchan, hct] at hc
    cases hc
  | some ct0 =>
    cases hcu : lookupA uid ct0 with
    | none =>
      rw [mcCancelRestore_eq_nouser cid uid st ct0 hct hcu]
      refine ⟨⟨h1, h2, h3, h4, h5⟩, ?_, rfl⟩
      intro t ht hres hchan huid
      obtain ⟨ct, hc, hu⟩ := h1 t ht hres
      rw [hchan, hct] at hc
      rw [huid, (Option.some.inj hc).symm, hcu] at hu
      cases hu
    | some tid0 =>
      rw [mcCancelRestore_eq_found cid uid st ct0 tid0 hct hcu]
      have hkeygone : ∀ t ∈ st.pending.filter (fun t => t.tid != tid0),
          t.purpose = TPurpose.restore → t.chan = cid → t.uid ≠ uid := by
        intro t ht hres hchan huid
        have htm := List.mem_of_mem_filter ht
        have htne := List.of_mem_filter ht
        have hne : t.tid ≠ tid0 := by simpa using htne
        obtain ⟨ct, hc, hu⟩ := h1 t htm hres
        rw [hchan, hct] at hc
        rw [huid, (Option.some.inj hc).symm, hcu] at hu
        exact hne (Option.some.inj hu).symm
      refine ⟨⟨?_, ?_, ?_, ?_, ?_⟩, hkeygone, rfl⟩
      · intro t ht hres
        have htm := List.mem_of_mem_filter ht
        obtain ⟨ct, hc, hu⟩ := h1 t htm hres
        by_cases hchan : t.chan = cid
        · have hcteq : ct = ct0 := by
            rw [hchan, hct] at hc
            exact (Option.some.inj hc).symm
          have huidne : t.uid ≠ uid := hkeygone t ht hres hchan
          refine ⟨eraseA uid ct0, ?_, ?_⟩
          · rw [hchan]
            exact lookupA_insertA_self cid _ _
          · rw [lookupA_eraseA_ne t.uid uid huidne]
            rw [← hcteq]
            exact hu
        · refine ⟨ct, ?_, hu⟩
          rw [lookupA_insertA_ne t.chan cid _ hchan]
          exact hc
      · intro t ht
        exact h2 t (List.mem_of_mem_filter ht)
      · intro p hp q hq
        rcases List.mem_append.mp hp with hold | hnew
        · exact h3 p (List.mem_of_mem_filter hold) q hq
        · rcases List.mem_singleton.mp hnew with rfl
          exact h3 (cid, ct0) (lookupA_mem_pair cid ct0 _ hct) q
            (List.mem_of_mem_filter hq)
      · exact h4.sublist ((List.filter_sublist _).map _)
      · intro cid2 hsp2
        by_cases hc2 : cid2 = cid
        · exfalso
          have hx := h5 cid2 hsp2
          rw [hc2, hct] at hx
          cases hx
        · rw [lookupA_insertA_ne cid2 cid _ hc2]
          exact h5 cid2 hsp2

theorem MCWF_mcSpeakerChange (cfg : Config) (now cid uid : Nat) (st : MCState)
    (h : MCWF st)
    (hres : ∀ t ∈ st.pending, t.purpose = TPurpose.restore → t.chan = cid → t.uid ≠ uid) :
    MCWF (mcSpeakerChange cfg now cid uid st) ∧
    (∀ t ∈ (mcSpeakerChange cfg now cid uid st).pending,
       t.purpose = TPurpose.restore → t.chan = cid → t.uid ≠ uid) ∧
    lookupA cid (mcSpeakerChange cfg now cid uid st).channel_speakers ≠ none := by
  obtain ⟨h1, h2, h3, h4, h5⟩ := h
  unfold mcSpeakerChange
  by_cases hs : (lookupA cid st.channel_speakers).getD none ≠ some uid
  · rw [if_pos hs]
    refine ⟨⟨?_, ?_, ?_, ?_, ?_⟩, ?_, ?_⟩
    · intro t ht hres2
      rcases List.mem_append.mp ht with hold | hnew
      · exact h1 t hold hres2
      · rcases List.mem_singleton.mp hnew with rfl
        cases hres2
    · intro t ht
      rcases List.mem_append.mp ht with hold | hnew
      · exact Nat.lt_succ_of_lt (h2 t hold)
      · rcases List.mem_singleton.mp hnew with rfl
        exact Nat.lt_succ_self _
    · intro p hp q hq
      exact Nat.lt_succ_of_lt (h3 p hp q hq)
    · rw [List.map_append]
      refine h4.append (List.nodup_singleton _) ?_
      intro a ha hb
      rcases List.mem_map.mp ha with ⟨t, htm, rfl⟩
      rcases List.mem_singleton.mp hb with hEq
      have := h2 t htm
      simp only [List.map_cons, List.map_nil] at hEq
      omega
    · intro cid2 hsp2
      by_cases hc2 : cid2 = cid
      · exfalso
        rw [hc2, lookupA_insertA_self] at hsp2
        cases hsp2
      · rw [lookupA_insertA_ne cid2 cid _ hc2] at hsp2
        exact h5 cid2 hsp2
    · intro t ht hres2
      rcases List.mem_append.mp ht with hold | hnew
      · exact hres t hold hres2
      · rcases List.mem_singleton.mp hnew with rfl
        intro _
        cases hres2
    · rw [lookupA_insertA_self]
      simp
  · rw [if_neg hs]
    have hs2 : (lookupA cid st.channel_speakers).getD none = some uid := not_not.mp hs
    refine ⟨⟨h1, h2, h3, h4, h5⟩, hres, ?_⟩
    intro hnone
    rw [hnone] at hs2
    cases hs2

theorem MCWF_mcArmRestore (cfg : Config) (now cid uid : Nat) (st : MCState)
    (h : MCWF st)
    (hres : ∀ t ∈ st.pending, t.purpose = TPurpose.restore → t.chan = cid → t.uid ≠ uid)
    (hkey : lookupA cid st.channel_speakers ≠ none) :
    MCWF (mcArmRestore cfg now cid uid st) := by
  obtain ⟨h1, h2, h3, h4, h5⟩ := h
  rw [mcArmRestore_eq]
  refine ⟨?_, ?_, ?_, ?_, ?_⟩
  · intro t ht hres2
    rcases List.mem_append.mp ht with hold | hnew
    · obtain ⟨ct, hc, hu⟩ := h1 t hold hres2
      by_cases hchan : t.chan = cid
      · have huidne : t.uid ≠ uid := hres t hold hres2 hchan
        refine ⟨insertA uid st.nextTid ((lookupA cid st.channel_timers).getD []), ?_, ?_⟩
        · rw [hchan]
          exact lookupA_insertA_self cid _ _
        · rw [lookupA_insertA_ne t.uid uid _ huidne]
          rw [hchan] at hc
          rw [hc]
          simpa using hu
      · refine ⟨ct, ?_, hu⟩
        rw [lookupA_insertA_ne t.chan cid _ hchan]
        exact hc
    · rcases List.mem_singleton.mp hnew with rfl
      exact ⟨insertA uid st.nextTid ((lookupA cid st.channel_timers).getD []),
        lookupA_insertA_self _ _ _, lookupA_insertA_self _ _ _⟩
  · intro t ht
    rcases List.mem_append.mp ht with hold | hnew
    · exact Nat.lt_succ_of_lt (h2 t hold)
    · rcases List.mem_singleton.mp hnew with rfl
      exact Nat.lt_succ_self _
  · intro p hp q hq
    rcases List.mem_append.mp hp with hold | hnew
    · exact Nat.lt_succ_of_lt (h3 p (List.mem_of_mem_filter hold) q hq)
    · rcases List.mem_singleton.mp hnew with rfl
      rcases List.mem_append.mp hq with hq1 | hq2
      · have hq0 := List.mem_of_mem_filter hq1
        cases hctd : lookupA cid st.channel_timers with
        | none =>
          rw [hctd] at hq0
          simp at hq0
        | some ct0 =>
          rw [hctd] at hq0
          exact Nat.lt_succ_of_lt
            (h3 (cid, ct0) (lookupA_mem_pair cid ct0 _ hctd) q hq0)
      · rcases List.mem_singleton.mp hq2 with rfl
        exact Nat.lt_succ_self _
  · rw [List.map_append]
    refine h4.append (List.nodup_singleton _) ?_
    intro a ha hb
    rcases List.mem_map.mp ha with ⟨t, htm, rfl⟩
    rcases List.mem_singleton.mp hb with hEq
    have := h2 t htm
    simp only [List.map_cons, List.map_nil] at hEq
    omega
  · intro cid2 hsp2
    by_cases hc2 : cid2 = cid
    · exfalso
      rw [hc2] at hsp2
      exact hkey hsp2
    · rw [lookupA_insertA_ne cid2 cid _ hc2]
      exact h5 cid2 hsp2

theorem MCWF_mc_on_sound_received (cfg : Config) (channels : List (Nat × String))
    (now : Nat) (u : User) (st : MCState) (h : MCWF st) :
    MCWF (mc_on_sound_received cfg channels now u st) := by
  by_cases hr : st.running = false
  · rw [show mc_on_sound_received cfg channels now u st = st from by
      simp [mc_on_sound_received, hr]]
    exact h
  · cases hch : lookupA u.channel_id channels with
    | none =>
      rw [show mc_on_sound_received cfg channels now u st = st from by
        simp [mc_on_sound_received, hr, hch]]
      exact h
    | some nm =>
      by_cases hsc : is_halfduplex_channel cfg nm = false
      · rw [show mc_on_sound_received cfg channels now u st = st from by
          simp [mc_on_sound_received, hr, hch, hsc]]
        exact h
      · rw [show mc_on_sound_received cfg channels now u st =
            mcArmRestore cfg now u.channel_id u.session
              (mcSpeakerChange cfg now u.channel_id u.session
                (mcCancelRestore u.channel_id u.session
                  (mcInitChannel u.channel_id st))) from by
          simp [mc_on_sound_received, hr, hch, hsc]]
        have hw0 := MCWF_mcInitChannel u.channel_id st h
        obtain ⟨hw1, hp1, _⟩ := MCWF_mcCancelRestore u.channel_id u.session _ hw0
        obtain ⟨hw2, hp2, hkey⟩ :=
          MCWF_mcSpeakerChange cfg now u.channel_id u.session _ hw1 hp1
        exact MCWF_mcArmRestore cfg now u.channel_id u.session _ hw2 hp2 hkey

theorem mc_fireRevoke_fst (users : List User) (fails : Nat → Bool) (now cid sp : Nat)
    (st : MCState) : (mc_fireRevoke users fails now cid sp st).1 = st := by
  unfold mc_fireRevoke
  split <;> rfl

theorem mcFireTimer_fst_revoke (users : List User) (fails : Nat → Bool) (t : MCTimer)
    (st : MCState) (hp : t.purpose = TPurpose.revoke) :
    (mcFireTimer users fails t st).1 =
      { st with pending := st.pending.filter (fun t2 => t2.tid != t.tid) } := by
  unfold mcFireTimer
  rw [hp]
  exact mc_fireRevoke_fst users fails t.fireAt t.chan t.uid _

theorem MCWF_mc_fireRestore (users : List User) (fails : Nat → Bool) (now cid uid : Nat)
    (st : MCState) (h : MCWF st)
    (hres : ∀ t ∈ st.pending, t.purpose = TPurpose.restore → t.chan = cid → t.uid ≠ uid) :
    MCWF (mc_fireRestore users fails now cid uid st).1 := by
  obtain ⟨h1, h2, h3, h4, h5⟩ := h
  have hspins : MCWF { st with channel_speakers := insertA cid none st.channel_speakers } := by
    refine ⟨h1, h2, h3, h4, ?_⟩
    intro cid2 hsp2
    by_cases hc2 : cid2 = cid
    · exfalso
      rw [hc2, lookupA_insertA_self] at hsp2
      cases hsp2
    · rw [lookupA_insertA_ne cid2 cid _ hc2] at hsp2
      exact h5 cid2 hsp2
  cases hct : lookupA cid st.channel_timers with
  | none =>
    by_cases hs : (lookupA cid st.channel_speakers).getD none = some uid
    · rw [show (mc_fireRestore users fails now cid uid st).1 =
          { st with channel_speakers := insertA cid none st.channel_speakers } from by
        simp [mc_fireRestore, hct, hs]]
      exact hspins
    · rw [show (mc_fireRestore users fails now cid uid st).1 = st from by
        simp [mc_fireRestore, hct, hs]]
      exact ⟨h1, h2, h3, h4, h5⟩
  | some ct =>
    cases hut : (lookupA uid ct).isSome with
    | false =>
      by_cases hs : (lookupA cid st.channel_speakers).getD none = some uid
      · rw [show (mc_fireRestore users fails now cid uid st).1 =
            { st with channel_speakers := insertA cid none st.channel_speakers } from by
          simp [mc_fireRestore, hct, hut, hs]]
        exact hspins
      · rw [show (mc_fireRestore users fails now cid uid st).1 = st from by
          simp [mc_fireRestore, hct, hut, hs]]
        exact ⟨h1, h2, h3, h4, h5⟩
    | true =>
      have hwipe : MCWF { st with
          channel_timers := insertA cid (eraseA uid ct) st.channel_timers } := by
        refine ⟨?_, h2, ?_, h4, ?_⟩
        · intro t ht hres2
          obtain ⟨ct2, hc2, hu2⟩ := h1 t ht hres2
          by_cases hchan : t.chan = cid
          · have hcteq : ct2 = ct := by
              rw [hchan, hct] at hc2
              exact (Option.some.inj hc2).symm
            have huidne : t.uid ≠ uid := hres t ht hres2 hchan
            refine ⟨eraseA uid ct, ?_, ?_⟩
            · rw [hchan]
              exact lookupA_insertA_self cid _ _
            · rw [lookupA_eraseA_ne t.uid uid huidne]
              rw [← hcteq]
              exact hu2
          · refine ⟨ct2, ?_, hu2⟩
            rw [lookupA_insertA_ne t.chan cid _ hchan]
            exact hc2
        · intro p hp q hq
          rcases List.mem_append.mp hp with hold | hnew
          · exact h3 p (List.mem_of_mem_filter hold) q hq
          · rcases List.mem_singleton.mp hnew with rfl
            exact h3 (cid, ct) (lookupA_mem_pair cid ct _ hct) q
              (List.mem_of_mem_filter hq)
        · intro cid2 hsp2
          by_cases hc2 : cid2 = cid
          · exfalso
            have hx := h5 cid2 hsp2
            rw [hc2, hct] at hx
            cases hx
          · rw [lookupA_insertA_ne cid2 cid _ hc2]
            exact h5 cid2 hsp2
      by_cases hs : (lookupA cid st.channel_speakers).getD none = some uid
      · rw [show (mc_fireRestore users fails now cid uid st).1 =
            { st with channel_timers := insertA cid (eraseA uid ct) st.channel_timers,
                      channel_speakers := insertA cid none st.channel_speakers } from by
          simp [mc_fireRestore, hct, hut, hs]]
        obtain ⟨g1, g2, g3, g4, g5⟩ := hwipe
        refine ⟨g1, g2, g3, g4, ?_⟩
        intro cid2 hsp2
        by_cases hc2 : cid2 = cid
        · exfalso
          rw [hc2, lookupA_insertA_self] at hsp2
          cases hsp2
        · rw [lookupA_insertA_ne cid2 cid _ hc2] at hsp2
          exact g5 cid2 hsp2
      · rw [show (mc_fireRestore users fails now cid uid st).1 =
            { st with channel_timers := insertA cid (eraseA uid ct) st.channel_timers } from by
          simp [mc_fireRestore, hct, hut, hs]]
        exact hwipe

theorem MCWF_mcFireTimer (users : List User) (fails : Nat → Bool) (t : MCTimer)
    (st : MCState) (ht : t ∈ st.pending) (h : MCWF st) :
    MCWF (mcFireTimer users fails t st).1 := by
  have hst0 : MCWF { st with
      pending := st.pending.filter (fun t2 => t2.tid != t.tid) } := by
    obtain ⟨h1, h2, h3, h4, h5⟩ := h
    exact ⟨fun t2 ht2 hr2 => h1 t2 (List.mem_of_mem_filter ht2) hr2,
           fun t2 ht2 => h2 t2 (List.mem_of_mem_filter ht2), h3,
           h4.sublist ((List.filter_sublist _).map _), h5⟩
  cases hp : t.purpose with
  | revoke =>
    rw [mcFireTimer_fst_revoke users fails t st hp]
    exact hst0
  | restore =>
    have hres0 : ∀ t2 ∈ st.pending.filter (fun t2 => t2.tid != t.tid),
        t2.purpose = TPurpose.restore → t2.chan = t.chan → t2.uid ≠ t.uid := by
      intro t2 ht2 hr2 hchan huid
      have hm2 := List.mem_of_mem_filter ht2
      have htne := List.of_mem_filter ht2
      have hne : t2.tid ≠ t.tid := by simpa using htne
      obtain ⟨ct, hc, hu⟩ := h.1 t ht hp
      obtain ⟨ct2, hc2, hu2⟩ := h.1 t2 hm2 hr2
      rw [hchan, hc] at hc2
      rw [huid, (Option.some.inj hc2).symm, hu] at hu2
      exact hne (Option.some.inj hu2).symm
    have hgoal : (mcFireTimer users fails t st).1 =
        (mc_fireRestore users fails t.fireAt t.chan t.uid
          { st with pending := st.pending.filter (fun t2 => t2.tid != t.tid) }).1 := by
      unfold mcFireTimer
      rw [hp]
    rw [hgoal]
    exact MCWF_mc_fireRestore users fails t.fireAt t.chan t.uid _ hst0 hres0

theorem MCWF_of_mcReachable (st : MCState) (h : MCReachable st) : MCWF st := by
  induction h with
  | init =>
    refine ⟨?_, ?_, ?_, ?_, ?_⟩ <;> simp [mcInitState, lookupA]
  | sound cfg channels now u st _ ih =>
    exact MCWF_mc_on_sound_received cfg channels now u st ih
  | fire users fails t st ht _ ih => exact MCWF_mcFireTimer users fails t st ht ih
  | halt st _ ih => exact ih

theorem mc_restore_unique_of_MCWF (st : MCState) (h : MCWF st) (cid uid : Nat) :
    (st.pending.filter
      (fun t => t.purpose == TPurpose.restore &&
        (t.chan == cid && t.uid == uid))).length ≤ 1 := by
  obtain ⟨h1, _, _, h4, _⟩ := h
  refine length_le_one_of_all_eq _ ((List.Nodup.of_map _ h4).filter _) ?_
  intro t1 ht1 t2 ht2
  have hm1 := List.mem_of_mem_filter ht1
  have hm2 := List.mem_of_mem_filter ht2
  have hc1 := List.of_mem_filter ht1
  have hc2 := List.of_mem_filter ht2
  have hp1 : t1.purpose = TPurpose.restore := by
    have := (Bool.and_eq_true_iff.mp hc1).1
    simpa using this
  have hp2 : t2.purpose = TPurpose.restore := by
    have := (Bool.and_eq_true_iff.mp hc2).1
    simpa using this
  have hch1 : t1.chan = cid := by
    have := (Bool.and_eq_true_iff.mp (Bool.and_eq_true_iff.mp hc1).2).1
    simpa using this
  have hch2 : t2.chan = cid := by
    have := (Bool.and_eq_true_iff.mp (Bool.and_eq_true_iff.mp hc2).2).1
    simpa using this
  have hu1 : t1.uid = uid := by
    have := (Bool.and_eq_true_iff.mp (Bool.and_eq_true_iff.mp hc1).2).2
    simpa using this
  have hu2 : t2.uid = uid := by
    have := (Bool.and_eq_true_iff.mp (Bool.and_eq_true_iff.mp hc2).2).2
    simpa using this
  obtain ⟨ct1, hcta, hcua⟩ := h1 t1 hm1 hp1
  obtain ⟨ct2, hctb, hcub⟩ := h1 t2 hm2 hp2
  rw [hch1] at hcta
  rw [hch2, hcta] at hctb
  rw [hu1] at hcua
  rw [hu2, (Option.some.inj hctb).symm, hcua] at hcub
  exact List.inj_on_of_nodup_map h4 hm1 hm2 (Option.some.inj hcub)

/-- Claim C3 amended: in every reachable state of either bot variant
there is at most one live restore timer per key — per participant in the
single-channel bot and per (channel, participant) in the multichannel
bot — because arming a restore timer first cancels and unregisters the
pending one for the same key.  Revoke timers, by contrast, are started
without being registered anywhere and can stack (see the
counterexample). -/
theorem restore_timer_unique_per_key (st : BotState) (st2 : MCState)
    (h : Reachable st) (h2 : MCReachable st2) (uid cid uid2 : Nat) :
    (st.pending.filter
      (fun t => t.purpose == TPurpose.restore && t.uid == uid)).length ≤ 1 ∧
    (st2.pending.filter
      (fun t => t.purpose == TPurpose.restore &&
        (t.chan == cid && t.uid == uid2))).length ≤ 1 :=
  ⟨restore_unique_of_WF st (WF_of_reachable st h) uid,
   mc_restore_unique_of_MCWF st2 (MCWF_of_mcReachable st2 h2) cid uid2⟩

theorem restore_timer_unique_per_key_witness :
    (Reachable (on_sound_received exCfg (some 7) 0 exA initState) ∧
     MCReachable (mc_on_sound_received exCfg [(7, "hd")] 0 exA mcInitState)) ∧
    ((on_sound_received exCfg (some 7) 0 exA initState).pending.filter
      (fun t => t.purpose == TPurpose.restore && t.uid == 1)).length ≤ 1 ∧
    ((mc_on_sound_received exCfg [(7, "hd")] 0 exA mcInitState).pending.filter
      (fun t => t.purpose == TPurpose.restore &&
        (t.chan == 7 && t.uid == 1))).length ≤ 1 :=
  ⟨⟨Reachable.sound exCfg (some 7) 0 exA initState Reachable.init,
    MCReachable.sound exCfg [(7, "hd")] 0 exA mcInitState MCReachable.init⟩,
   (restore_timer_unique_per_key (on_sound_received exCfg (some 7) 0 exA initState)
     (mc_on_sound_received exCfg [(7, "hd")] 0 exA mcInitState)
     (Reachable.sound exCfg (some 7) 0 exA initState Reachable.init)
     (MCReachable.sound exCfg [(7, "hd")] 0 exA mcInitState MCReachable.init) 1 7 1).1,
   (restore_timer_unique_per_key (on_sound_received exCfg (some 7) 0 exA initState)
     (mc_on_sound_received exCfg [(7, "hd")] 0 exA mcInitState)
     (Reachable.sound exCfg (some 7) 0 exA initState Reachable.init)
     (MCReachable.sound exCfg [(7, "hd")] 0 exA mcInitState MCReachable.init) 1 7 1).2⟩

/-- Claim C7 amended: `stop` clears the running flag and cancels exactly
the registered timers, which in a well-formed state are precisely the
pending restore timers; pending revoke timers are not cancelled and
survive `stop`, but firing any surviving timer afterwards issues no
enforcement and only removes the timer (it is suppressed by the
running-flag check alone); finally, when still connected, `stop` issues
one best-effort unmute request per channel roster member, with every
per-participant failure swallowed. -/
theorem stop_semantics_amended (tc : Option Nat) (users : List User) (fails : Nat → Bool)
    (connected : Bool) (now : Nat) (st : BotState) (h : WF st) :
    (stop tc users fails connected now st).1.running = false ∧
    (stop tc users fails connected now st).1.speak_timers = [] ∧
    (∀ t ∈ (stop tc users fails connected now st).1.pending,
       t.purpose = TPurpose.revoke) ∧
    (∀ t ∈ (stop tc users fails connected now st).1.pending,
       ∀ (tc2 : Option Nat) (users2 : List User) (fails2 : Nat → Bool),
         fireTimer tc2 users2 fails2 t (stop tc users fails connected now st).1 =
           ({ (stop tc users fails connected now st).1 with
                pending := (stop tc users fails connected now st).1.pending.filter
                  (fun t2 => t2.tid != t.tid) }, [])) ∧
    (connected = true →
       (stop tc users fails connected now st).2.map (fun e => e.session) =
         (get_users_in_channel tc users).map (fun u => u.session)) ∧
    (connected = false → (stop tc users fails connected now st).2 = []) := by
  have hrev := (WF_stop tc users fails connected now st h).2
  refine ⟨?_, ?_, hrev, ?_, ?_, ?_⟩
  · rw [stop_fst]
  · rw [stop_fst]
  · intro t ht tc2 users2 fails2
    have hpur := hrev t ht
    have hrun : (stop tc users fails connected now st).1.running = false := by
      rw [stop_fst]
    unfold fireTimer
    rw [hpur]
    exact fireRevoke_drop _ _ _ _ _ _ (Or.inl hrun)
  · intro hc
    subst hc
    unfold stop
    exact enfLoop_sessions _ _ _ _
  · intro hc
    subst hc
    rfl

theorem stop_semantics_amended_witness :
    WF ⟨true, some 1, [(1, 1)], [⟨0, 5, TPurpose.revoke, 1⟩,
        ⟨1, 10, TPurpose.restore, 1⟩], 2⟩ ∧
    (stop (some 7) exUsers (fun _ => false) true 3
        ⟨true, some 1, [(1, 1)], [⟨0, 5, TPurpose.revoke, 1⟩,
          ⟨1, 10, TPurpose.restore, 1⟩], 2⟩).1.running = false ∧
    (stop (some 7) exUsers (fun _ => false) true 3
        ⟨true, some 1, [(1, 1)], [⟨0, 5, TPurpose.revoke, 1⟩,
          ⟨1, 10, TPurpose.restore, 1⟩], 2⟩).1.speak_timers = [] := by
  have hWF : WF ⟨true, some 1, [(1, 1)], [⟨0, 5, TPurpose.revoke, 1⟩,
      ⟨1, 10, TPurpose.restore, 1⟩], 2⟩ := by
    refine ⟨?_, ?_, ?_, ?_⟩ <;> decide
  have happ := stop_semantics_amended (some 7) exUsers (fun _ => false) true 3
    ⟨true, some 1, [(1, 1)], [⟨0, 5, TPurpose.revoke, 1⟩,
      ⟨1, 10, TPurpose.restore, 1⟩], 2⟩ hWF
  exact ⟨hWF, happ.1, happ.2.1⟩

theorem lookupA_single_self {α : Type} (k : Nat) (v : α) :
    lookupA k [(k, v)] = some v := by
  simp [lookupA]

theorem fireRevoke_fire (tc : Option Nat) (users : List User) (fails : Nat → Bool)
    (now sp : Nat) (st : BotState) (hr : st.running = true)
    (hs : st.current_speaker = some sp) :
    fireRevoke tc users fails now sp st =
      (st, enfLoop Req.mute fails now
        (((get_users_in_channel tc users).filter (fun u => u.session != sp)).map
          (fun u => u.session))) := by
  unfold fireRevoke
  rw [if_neg (by simp [hr, hs])]

theorem fireRestore_fire (tc : Option Nat) (users : List User) (fails : Nat → Bool)
    (now uid : Nat) (st : BotState) (hs : st.current_speaker = some uid) :
    fireRestore tc users fails now uid st =
      ({ st with current_speaker := none, speak_timers := eraseA uid st.speak_timers },
       enfLoop Req.unmute fails now
         ((get_users_in_channel tc users).map (fun u => u.session))) := by
  simp only [fireRestore]
  rw [if_pos hs]

theorem fireDue_no_due (tc : Option Nat) (users : List User) (fails : Nat → Bool)
    (now : Nat) (st : BotState)
    (h : st.pending.filter (fun t => decide (t.fireAt ≤ now)) = []) :
    fireDue tc users fails now st = (st, []) := by
  unfold fireDue
  rw [h]
  rfl

theorem osr_step_shape (cfg : Config) (c : Nat) (u : User) (tl t : Nat) (tid : Nat)
    (P : List PendingTimer) (hc : u.channel_id = c)
    (hP : P.filter (fun t2 => t2.tid != tid) = P) :
    on_sound_received cfg (some c) t u
      ⟨true, some u.session, [(u.session, tid)],
        P ++ [⟨tid, tl + cfg.restore_delay, TPurpose.restore, u.session⟩], tid + 1⟩ =
      ⟨true, some u.session, [(u.session, tid + 1)],
        P ++ [⟨tid + 1, t + cfg.restore_delay, TPurpose.restore, u.session⟩], tid + 2⟩ := by
  have hcal : cancelRestoreTimer u.session
      (⟨true, some u.session, [(u.session, tid)],
        P ++ [⟨tid, tl + cfg.restore_delay, TPurpose.restore, u.session⟩],
        tid + 1⟩ : BotState) =
      ⟨true, some u.session, [], P, tid + 1⟩ := by
    rw [cancelRestoreTimer_eq_some _ _ tid (lookupA_single_self _ _)]
    simp [eraseA, List.filter_append, hP]
  have hspch : speakerChange cfg t u.session
      (⟨true, some u.session, [], P, tid + 1⟩ : BotState) =
      ⟨true, some u.session, [], P, tid + 1⟩ := by
    unfold speakerChange
    rw [if_neg (by simp)]
  have harm : armRestore cfg t u.session
      (⟨true, some u.session, [], P, tid + 1⟩ : BotState) =
      ⟨true, some u.session, [(u.session, tid + 1)],
        P ++ [⟨tid + 1, t + cfg.restore_delay, TPurpose.restore, u.session⟩],
        tid + 2⟩ := by
    unfold armRestore
    simp [insertA, eraseA]
  rw [show on_sound_received cfg (some c) t u
      (⟨true, some u.session, [(u.session, tid)],
        P ++ [⟨tid, tl + cfg.restore_delay, TPurpose.restore, u.session⟩],
        tid + 1⟩ : BotState) =
      armRestore cfg t u.session (speakerChange cfg t u.session
        (cancelRestoreTimer u.session
          (⟨true, some u.session, [(u.session, tid)],
            P ++ [⟨tid, tl + cfg.restore_delay, TPurpose.restore, u.session⟩],
            tid + 1⟩ : BotState))) from by
    simp [on_sound_received, hc]]
  rw [hcal, hspch, harm]

theorem midInv_base (cfg : Config) (c : Nat) (u : User) (t0 : Nat)
    (hc : u.channel_id = c) :
    MidInv cfg u t0 t0 (on_sound_received cfg (some c) t0 u initState) := by
  rw [show on_sound_received cfg (some c) t0 u initState =
      armRestore cfg t0 u.session
        (speakerChange cfg t0 u.session (cancelRestoreTimer u.session initState)) from by
    simp [on_sound_received, initState, hc]]
  rw [cancelRestoreTimer_eq_none u.session initState rfl]
  rw [show speakerChange cfg t0 u.session initState =
      ⟨true, some u.session, [], [⟨0, t0 + cfg.speak_delay, TPurpose.revoke, u.session⟩],
        1⟩ from by
    unfold speakerChange
    rw [if_pos (by simp [initState])]
    rfl]
  rw [show armRestore cfg t0 u.session
      (⟨true, some u.session, [], [⟨0, t0 + cfg.speak_delay, TPurpose.revoke, u.session⟩],
        1⟩ : BotState) =
      ⟨true, some u.session, [(u.session, 1)],
        [⟨0, t0 + cfg.speak_delay, TPurpose.revoke, u.session⟩,
         ⟨1, t0 + cfg.restore_delay, TPurpose.restore, u.session⟩], 2⟩ from by
    unfold armRestore
    simp [insertA, eraseA]]
  exact ⟨rfl, rfl, 1, Nat.le_refl 1, rfl, rfl, Or.inr rfl⟩

theorem fireTimer_rev_burst (cfg : Config) (c : Nat) (users : List User)
    (fails : Nat → Bool) (u : User) (t0 tl tid : Nat)
    (htid0 : ((tid : Nat) != 0) = true) :
    fireTimer (some c) users fails
      ⟨0, t0 + cfg.speak_delay, TPurpose.revoke, u.session⟩
      (⟨true, some u.session, [(u.session, tid)],
        [⟨0, t0 + cfg.speak_delay, TPurpose.revoke, u.session⟩,
         ⟨tid, tl + cfg.restore_delay, TPurpose.restore, u.session⟩],
        tid + 1⟩ : BotState) =
      ((⟨true, some u.session, [(u.session, tid)],
        [⟨tid, tl + cfg.restore_delay, TPurpose.restore, u.session⟩],
        tid + 1⟩ : BotState),
       enfLoop Req.mute fails (t0 + cfg.speak_delay)
         (((get_users_in_channel (some c) users).filter
             (fun w => w.session != u.session)).map (fun w => w.session))) := by
  simp only [fireTimer]
  refine (fireRevoke_fire (some c) users fails (t0 + cfg.speak_delay) u.session
    _ rfl rfl).trans ?_
  simp [htid0]

theorem fireTimer_res_burst (cfg : Config) (c : Nat) (users : List User)
    (fails : Nat → Bool) (u : User) (tl tid : Nat) :
    fireTimer (some c) users fails
      ⟨tid, tl + cfg.restore_delay, TPurpose.restore, u.session⟩
      (⟨true, some u.session, [(u.session, tid)],
        [⟨tid, tl + cfg.restore_delay, TPurpose.restore, u.session⟩],
        tid + 1⟩ : BotState) =
      ((⟨true, none, [], [], tid + 1⟩ : BotState),
       enfLoop Req.unmute fails (tl + cfg.restore_delay)
         ((get_users_in_channel (some c) users).map (fun w => w.session))) := by
  simp only [fireTimer]
  refine (fireRestore_fire (some c) users fails (tl + cfg.restore_delay) u.session
    _ rfl).trans ?_
  simp [eraseA]

theorem midInv_step (cfg : Config) (c : Nat) (users : List User) (fails : Nat → Bool)
    (u : User) (t0 tl t : Nat) (st : BotState) (hc : u.channel_id = c)
    (hInv : MidInv cfg u t0 tl st) (_h1 : tl < t) (h2 : t < tl + cfg.restore_delay) :
    MidInv cfg u t0 t
      (on_sound_received cfg (some c) t u (fireDue (some c) users fails t st).1) ∧
    (∀ e ∈ (fireDue (some c) users fails t st).2, e.req = Req.mute) := by
  obtain ⟨hrun, hspk, tid, htid1, hreg, hnext, hpend⟩ := hInv
  have hndr : ¬(tl + cfg.restore_delay ≤ t) := by omega
  have htid0 : ((tid : Nat) != 0) = true := by
    simp only [bne_iff_ne, ne_eq]
    omega
  have h0tid : ((0 : Nat) != tid) = true := by
    simp only [bne_iff_ne, ne_eq]
    omega
  rcases hpend with hpA | hpB
  · have hst : st = ⟨true, some u.session, [(u.session, tid)],
        [] ++ [⟨tid, tl + cfg.restore_delay, TPurpose.restore, u.session⟩],
        tid + 1⟩ := by
      cases st
      simp_all
    rw [hst]
    have hfd1 : (fireDue (some c) users fails t
        (⟨true, some u.session, [(u.session, tid)],
          [] ++ [⟨tid, tl + cfg.restore_delay, TPurpose.restore, u.session⟩],
          tid + 1⟩ : BotState)).1 =
        ⟨true, some u.session, [(u.session, tid)],
          [] ++ [⟨tid, tl + cfg.restore_delay, TPurpose.restore, u.session⟩],
          tid + 1⟩ := by
      unfold fireDue
      simp [hndr]
    have hfd2 : (fireDue (some c) users fails t
        (⟨true, some u.session, [(u.session, tid)],
          [] ++ [⟨tid, tl + cfg.restore_delay, TPurpose.restore, u.session⟩],
          tid + 1⟩ : BotState)).2 = [] := by
      unfold fireDue
      simp [hndr]
    rw [hfd1, hfd2]
    constructor
    · rw [osr_step_shape cfg c u tl t tid [] hc rfl]
      exact ⟨rfl, rfl, tid + 1, by omega, rfl, rfl, Or.inl rfl⟩
    · intro e he
      cases he
  · have hst : st = ⟨true, some u.session, [(u.session, tid)],
        [⟨0, t0 + cfg.speak_delay, TPurpose.revoke, u.session⟩] ++
          [⟨tid, tl + cfg.restore_delay, TPurpose.restore, u.session⟩],
        tid + 1⟩ := by
      cases st
      simp_all
    rw [hst]
    by_cases hdue : t0 + cfg.speak_delay ≤ t
    · have hfd1 : (fireDue (some c) users fails t
          (⟨true, some u.session, [(u.session, tid)],
            [⟨0, t0 + cfg.speak_delay, TPurpose.revoke, u.session⟩] ++
              [⟨tid, tl + cfg.restore_delay, TPurpose.restore, u.session⟩],
            tid + 1⟩ : BotState)).1 =
          ⟨true, some u.session, [(u.session, tid)],
            [] ++ [⟨tid, tl + cfg.restore_delay, TPurpose.restore, u.session⟩],
            tid + 1⟩ := by
        unfold fireDue
        simp [hdue, hndr, fireTimer_rev_burst cfg c users fails u t0 tl tid htid0]
      have hfd2 : (fireDue (some c) users fails t
          (⟨true, some u.session, [(u.session, tid)],
            [⟨0, t0 + cfg.speak_delay, TPurpose.revoke, u.session⟩] ++
              [⟨tid, tl + cfg.restore_delay, TPurpose.restore, u.session⟩],
            tid + 1⟩ : BotState)).2 =
          enfLoop Req.mute fails (t0 + cfg.speak_delay)
            (((get_users_in_channel (some c) users).filter
                (fun w => w.session != u.session)).map (fun w => w.session)) := by
        unfold fireDue
        simp [hdue, hndr, fireTimer_rev_burst cfg c users fails u t0 tl tid htid0]
      rw [hfd1, hfd2]
      constructor
      · rw [osr_step_shape cfg c u tl t tid [] hc rfl]
        exact ⟨rfl, rfl, tid + 1, by omega, rfl, rfl, Or.inl rfl⟩
      · intro e he
        exact enfLoop_req _ _ _ _ e he
    · have hfd1 : (fireDue (some c) users fails t
          (⟨true, some u.session, [(u.session, tid)],
            [⟨0, t0 + cfg.speak_delay, TPurpose.revoke, u.session⟩] ++
              [⟨tid, tl + cfg.restore_delay, TPurpose.restore, u.session⟩],
            tid + 1⟩ : BotState)).1 =
          ⟨true, some u.session, [(u.session, tid)],
            [⟨0, t0 + cfg.speak_delay, TPurpose.revoke, u.session⟩] ++
              [⟨tid, tl + cfg.restore_delay, TPurpose.restore, u.session⟩],
            tid + 1⟩ := by
        unfold fireDue
        simp [hdue, hndr]
      have hfd2 : (fireDue (some c) users fails t
          (⟨true, some u.session, [(u.session, tid)],
            [⟨0, t0 + cfg.speak_delay, TPurpose.revoke, u.session⟩] ++
              [⟨tid, tl + cfg.restore_delay, TPurpose.restore, u.session⟩],
            tid + 1⟩ : BotState)).2 = [] := by
        unfold fireDue
        simp [hdue, hndr]
      rw [hfd1, hfd2]
      constructor
      · rw [osr_step_shape cfg c u tl t tid
          [⟨0, t0 + cfg.speak_delay, TPurpose.revoke, u.session⟩] hc
          (by simp [h0tid])]
        exact ⟨rfl, rfl, tid + 1, by omega, rfl, rfl, Or.inr rfl⟩
      · intro e he
        cases he

theorem runSig_inv (cfg : Config) (c : Nat) (users : List User) (fails : Nat → Bool)
    (u : User) (t0 : Nat) (hc : u.channel_id = c) :
    ∀ (rest : List Nat) (tl : Nat) (st : BotState) (log : List LogEntry),
      MidInv cfg u t0 tl st →
      goodGaps cfg.restore_delay tl rest = true →
      (∀ e ∈ log, e.req = Req.mute) →
      MidInv cfg u t0 (rest.getLastD tl)
        (runSig cfg (some c) users fails u rest (st, log)).1 ∧
      (∀ e ∈ (runSig cfg (some c) users fails u rest (st, log)).2, e.req = Req.mute)
  | [], tl, st, log => fun hInv _ hlog => ⟨hInv, hlog⟩
  | t :: rest, tl, st, log => fun hInv hg hlog => by
    have hg0 : ((decide (tl < t) && decide (t < tl + cfg.restore_delay)) &&
        goodGaps cfg.restore_delay t rest) = true := hg
    have hg1 : tl < t :=
      of_decide_eq_true (Bool.and_eq_true_iff.mp (Bool.and_eq_true_iff.mp hg0).1).1
    have hg2 : t < tl + cfg.restore_delay :=
      of_decide_eq_true (Bool.and_eq_true_iff.mp (Bool.and_eq_true_iff.mp hg0).1).2
    have hg3 : goodGaps cfg.restore_delay t rest = true :=
      (Bool.and_eq_true_iff.mp hg0).2
    obtain ⟨hInv2, hmute⟩ := midInv_step cfg c users fails u t0 tl t st hc hInv hg1 hg2
    have hlog2 : ∀ e ∈ log ++ (fireDue (some c) users fails t st).2,
        e.req = Req.mute := by
      intro e he
      rcases List.mem_append.mp he with h | h
      · exact hlog e h
      · exact hmute e h
    have hrec := runSig_inv cfg c users fails u t0 hc rest t
      (on_sound_received cfg (some c) t u (fireDue (some c) users fails t st).1)
      (log ++ (fireDue (some c) users fails t st).2) hInv2 hg3 hlog2
    rw [List.getLastD_cons]
    exact hrec

theorem flush_fires_restore (cfg : Config) (c : Nat) (users : List User)
    (fails : Nat → Bool) (u : User) (t0 tl N : Nat) (st : BotState)
    (hInv : MidInv cfg u t0 tl st)
    (hN1 : t0 + cfg.speak_delay ≤ N) (hN2 : tl + cfg.restore_delay ≤ N) :
    (fireDue (some c) users fails N st).1.current_speaker = none ∧
    (fireDue (some c) users fails N st).2.filter (fun e => e.req == Req.unmute) =
      (usersInChannel users c).map
        (fun w => ⟨tl + cfg.restore_delay, Req.unmute, w.session, !fails w.session⟩) := by
  obtain ⟨hrun, hspk, tid, htid1, hreg, hnext, hpend⟩ := hInv
  have htid0 : ((tid : Nat) != 0) = true := by
    simp only [bne_iff_ne, ne_eq]
    omega
  have hresfilt : (enfLoop Req.unmute fails (tl + cfg.restore_delay)
      ((get_users_in_channel (some c) users).map (fun w => w.session))).filter
        (fun e => e.req == Req.unmute) =
      (usersInChannel users c).map
        (fun w => ⟨tl + cfg.restore_delay, Req.unmute, w.session, !fails w.session⟩) := by
    rw [List.filter_eq_self.mpr]
    · rw [enfLoop_eq_map, List.map_map]
      rfl
    · intro e he
      have := enfLoop_req _ _ _ _ e he
      simp [this]
  rcases hpend with hpA | hpB
  · have hst : st = ⟨true, some u.session, [(u.session, tid)],
        [⟨tid, tl + cfg.restore_delay, TPurpose.restore, u.session⟩], tid + 1⟩ := by
      cases st
      simp_all
    rw [hst]
    have hfd1 : (fireDue (some c) users fails N
        (⟨true, some u.session, [(u.session, tid)],
          [⟨tid, tl + cfg.restore_delay, TPurpose.restore, u.session⟩],
          tid + 1⟩ : BotState)).1 = ⟨true, none, [], [], tid + 1⟩ := by
      unfold fireDue
      simp [hN2, fireTimer_res_burst cfg c users fails u tl tid]
    have hfd2 : (fireDue (some c) users fails N
        (⟨true, some u.session, [(u.session, tid)],
          [⟨tid, tl + cfg.restore_delay, TPurpose.restore, u.session⟩],
          tid + 1⟩ : BotState)).2 =
        enfLoop Req.unmute fails (tl + cfg.restore_delay)
          ((get_users_in_channel (some c) users).map (fun w => w.session)) := by
      unfold fireDue
      simp [hN2, fireTimer_res_burst cfg c users fails u tl tid]
    rw [hfd1, hfd2]
    exact ⟨rfl, hresfilt⟩
  · have hst : st = ⟨true, some u.session, [(u.session, tid)],
        [⟨0, t0 + cfg.speak_delay, TPurpose.revoke, u.session⟩,
         ⟨tid, tl + cfg.restore_delay, TPurpose.restore, u.session⟩], tid + 1⟩ := by
      cases st
      simp_all
    rw [hst]
    have hfd1 : (fireDue (some c) users fails N
        (⟨true, some u.session, [(u.session, tid)],
          [⟨0, t0 + cfg.speak_delay, TPurpose.revoke, u.session⟩,
           ⟨tid, tl + cfg.restore_delay, TPurpose.restore, u.session⟩],
          tid + 1⟩ : BotState)).1 = ⟨true, none, [], [], tid + 1⟩ := by
      unfold fireDue
      simp [hN1, hN2, fireTimer_rev_burst cfg c users fails u t0 tl tid htid0,
            fireTimer_res_burst cfg c users fails u tl tid]
    have hfd2 : (fireDue (some c) users fails N
        (⟨true, some u.session, [(u.session, tid)],
          [⟨0, t0 + cfg.speak_delay, TPurpose.revoke, u.session⟩,
           ⟨tid, tl + cfg.restore_delay, TPurpose.restore, u.session⟩],
          tid + 1⟩ : BotState)).2 =
        enfLoop Req.mute fails (t0 + cfg.speak_delay)
          (((get_users_in_channel (some c) users).filter
              (fun w => w.session != u.session)).map (fun w => w.session)) ++
        enfLoop Req.unmute fails (tl + cfg.restore_delay)
          ((get_users_in_channel (some c) users).map (fun w => w.session)) := by
      unfold fireDue
      simp [hN1, hN2, fireTimer_rev_burst cfg c users fails u t0 tl tid htid0,
            fireTimer_res_burst cfg c users fails u tl tid]
    rw [hfd1, hfd2]
    refine ⟨rfl, ?_⟩
    rw [List.filter_append]
    rw [List.filter_eq_nil_iff.mpr, List.nil_append, hresfilt]
    intro e he
    have := enfLoop_req _ _ _ _ e he
    simp [this]

/-- Claim C5: for a participant producing activity signals whose gaps
are all strictly below `restore_delay`, no restore (unmute) action is
ever issued while the signals continue; after the signals cease, exactly
one restore fires, timestamped `restore_delay` after the last signal,
unmuting the whole channel roster and clearing the speaker. -/
theorem debounce_single_restore (cfg : Config) (c : Nat) (users : List User)
    (fails : Nat → Bool) (u : User) (t0 : Nat) (rest : List Nat) (N : Nat)
    (hc : u.channel_id = c)
    (hg : goodGaps cfg.restore_delay t0 rest = true)
    (hN1 : t0 + cfg.speak_delay ≤ N)
    (hN2 : rest.getLastD t0 + cfg.restore_delay ≤ N) :
    ((runSig cfg (some c) users fails u (t0 :: rest) (initState, [])).2.filter
       (fun e => e.req == Req.unmute) = []) ∧
    (((runSig cfg (some c) users fails u (t0 :: rest) (initState, [])).2 ++
       (fireDue (some c) users fails N
         (runSig cfg (some c) users fails u (t0 :: rest) (initState, [])).1).2).filter
       (fun e => e.req == Req.unmute) =
      (usersInChannel users c).map
        (fun w => ⟨rest.getLastD t0 + cfg.restore_delay, Req.unmute, w.session,
                   !fails w.session⟩)) ∧
    (fireDue (some c) users fails N
       (runSig cfg (some c) users fails u (t0 :: rest) (initState, [])).1).1.current_speaker =
      none := by
  have hrw : runSig cfg (some c) users fails u (t0 :: rest) (initState, []) =
      runSig cfg (some c) users fails u rest
        (on_sound_received cfg (some c) t0 u initState, []) := rfl
  obtain ⟨hInvF, hmuteF⟩ := runSig_inv cfg c users fails u t0 hc rest t0
    (on_sound_received cfg (some c) t0 u initState) []
    (midInv_base cfg c u t0 hc) hg (fun e he => by cases he)
  obtain ⟨hspkF, hfiltF⟩ := flush_fires_restore cfg c users fails u t0
    (rest.getLastD t0) N _ hInvF hN1 hN2
  rw [hrw]
  refine ⟨?_, ?_, hspkF⟩
  · rw [List.filter_eq_nil_iff.mpr]
    intro e he
    have := hmuteF e he
    simp [this]
  · rw [List.filter_append]
    rw [List.filter_eq_nil_iff.mpr, List.nil_append, hfiltF]
    intro e he
    have := hmuteF e he
    simp [this]

theorem debounce_single_restore_witness :
    ((⟨1, "a", 7⟩ : User).channel_id = 7 ∧
     goodGaps (exCfg.restore_delay) 0 [3, 6] = true ∧
     0 + exCfg.speak_delay ≤ 100 ∧
     ([3, 6].getLastD 0 + exCfg.restore_delay ≤ 100)) ∧
    (fireDue (some 7) exUsers (fun _ => false) 100
       (runSig exCfg (some 7) exUsers (fun _ => false) exA [0, 3, 6]
         (initState, [])).1).1.current_speaker = none :=
  ⟨⟨rfl, by decide, by decide, by decide⟩,
   (debounce_single_restore exCfg 7 exUsers (fun _ => false) exA 0 [3, 6] 100
     rfl (by decide) (by decide) (by decide)).2.2⟩

end HalfDuplex
